import Mathlib

/-!
# Gas Town adapter (`internal/gastown/adapter.go`)

A shallow embedding of `FSAdapter` and of its query operations
(`Status`, `Town`, `Rigs`, `Rig`, `Agents`, `Convoys`, `Mail`), followed by
the update function of the terminal model (`internal/tui/model.go`).

The adapter is a read-only view over three outside sources: the filesystem
(`os.Stat`, `os.ReadDir`, `os.ReadFile`), external commands (`tmux`, `gt`) and
the standard library (`filepath.Join`, `json.Unmarshal`).  One snapshot of all
of them is a value of `Env`; every operation is a function of the snapshot and
of the adapter.  Go's `(value, error)` results are `Except String _`, the
string being the text of the error.  Go strings are Lean strings; the `int`
counters of `TownStatus` are natural numbers (they count elements of slices
held in memory and cannot wrap).
-/

namespace Gastown

/-! ## Data model (the fields the adapter reads or writes) -/

/-- The `AgentRole` constants used by the adapter. -/
inductive AgentRole where
  | RoleMayor
  | RoleDeacon
  | RoleWitness
  | RoleRefinery
  | RolePolecat
  | RoleCrew
  deriving DecidableEq, Repr

/-- The `AgentStatus` constants used by the adapter. -/
inductive AgentStatus where
  | StatusActive
  | StatusOffline
  deriving DecidableEq, Repr

/-- An `Agent` value; fields the adapter never sets keep their zero value
and are left out. -/
structure Agent where
  Role : AgentRole
  Name : String
  Rig : String
  Status : AgentStatus
  deriving DecidableEq, Repr

/-- A `Rig` value; the `*Agent` fields are options, the slices are lists. -/
structure Rig where
  Name : String
  Path : String
  Witness : Option Agent
  Refinery : Option Agent
  Polecats : List Agent
  Crew : List Agent
  deriving DecidableEq, Repr

/-- Modelled from the spec: the `Convoy` record type is declared outside the
files at hand; it is an opaque record taken verbatim from the external
command's JSON output, kept here as the text it was decoded from. -/
structure Convoy where
  json : String
  deriving DecidableEq, Repr

/-- Modelled from the spec: the `Message` record type is declared outside the
files at hand; it is an opaque record taken verbatim from the external
command's JSON output, kept here as the text it was decoded from. -/
structure Message where
  json : String
  deriving DecidableEq, Repr

/-- Modelled from the spec: the `TownConfig` type is declared outside the
files at hand; the only attribute the adapter reads is the display name. -/
structure TownConfig where
  Name : String
  deriving DecidableEq, Repr

/-- A `Town` value. -/
structure Town where
  Root : String
  Name : String
  Mayor : Option Agent
  Deacon : Option Agent
  Rigs : List Rig
  Convoys : List Convoy
  deriving DecidableEq, Repr

/-- A `TownStatus` value. -/
structure TownStatus where
  TownRoot : String
  Healthy : Bool
  Error : String
  ActiveRigs : Nat
  TotalAgents : Nat
  ActiveAgents : Nat
  OpenConvoys : Nat
  deriving DecidableEq, Repr

/-! ## The outside world -/

/-- What `os.ReadDir` reports for one child: `entry.Name()`, `entry.IsDir()`. -/
structure DirEntry where
  Name : String
  IsDir : Bool
  deriving DecidableEq, Repr

/-- What `os.Stat` reports for a path it could stat: `info.IsDir()`. -/
structure FileInfo where
  IsDir : Bool
  deriving DecidableEq, Repr

/-- One snapshot of everything the adapter consults outside itself. -/
structure Env where
  /-- The value of `filepath.Join(elems...)`. -/
  Join : List String → String
  /-- The result of `os.Stat(path)`. -/
  Stat : String → Except String FileInfo
  /-- The result of `os.ReadDir(path)`. -/
  ReadDir : String → Except String (List DirEntry)
  /-- The result of `os.ReadFile(path)`. -/
  ReadFile : String → Except String String
  /-- The value of `os.Getenv(key)`. -/
  Getenv : String → String
  /-- The result of `Output()` for `tmux list-sessions -F #{session_name}`. -/
  tmuxListSessions : Except String String
  /-- The result of `Run()` for `gt daemon status` with `cmd.Dir` given. -/
  gtDaemonStatus : String → Except String Unit
  /-- The result of `Output()` for `gt convoy list --json` with `cmd.Dir` given. -/
  gtConvoyList : String → Except String String
  /-- The result of `json.Unmarshal(data, &config)` for a `TownConfig`. -/
  unmarshalTownConfig : String → Except String TownConfig
  /-- The result of `json.Unmarshal(output, &convoys)` for a `[]Convoy`. -/
  unmarshalConvoys : String → Except String (List Convoy)
  /-- The result of `json.Unmarshal(output, &convoy)` for a `Convoy`. -/
  unmarshalConvoy : String → Except String Convoy
  /-- The result of `Output()` for `gt mail inbox --json` with `cmd.Dir` given
  and `GT_ROLE` set to the given address. -/
  gtMailInbox : String → String → Except String String
  /-- The result of `json.Unmarshal(output, &messages)` for a `[]Message`. -/
  unmarshalMessages : String → Except String (List Message)
  /-- The result `json.Unmarshal` has for a single `Message`; the adapter never
  asks for it, it serves to state what a single JSON object in the output is. -/
  unmarshalMessage : String → Except String Message

/-! ## Standard-library string helpers -/

/-- The test `strings.HasPrefix(s, p)`. -/
def HasPrefix (s p : String) : Bool :=
  p.data.isPrefixOf s.data

/-- The pieces of `strings.Split(s, "\n")`, on the characters of `s`. -/
def splitLines : List Char → List (List Char)
  | [] => [[]]
  | c :: cs =>
    if c = '\n' then [] :: splitLines cs
    else
      match splitLines cs with
      | [] => [[c]]
      | l :: ls => (c :: l) :: ls

/-- The test `unicode.IsSpace(c)`: the code points with the White_Space property. -/
def IsSpace (c : Char) : Bool :=
  let n := c.toNat
  (9 ≤ n && n ≤ 13) || n == 32 || n == 133 || n == 160 || n == 5760 ||
    (8192 ≤ n && n ≤ 8202) || n == 8232 || n == 8233 || n == 8239 ||
    n == 8287 || n == 12288

/-- The value of `strings.TrimSpace(s)`, on the characters of `s`. -/
def TrimSpace (s : List Char) : List Char :=
  ((s.dropWhile IsSpace).reverse.dropWhile IsSpace).reverse

/-! ## The adapter -/

/-- The adapter: its only state is the configured root. -/
structure FSAdapter where
  townRoot : String
  deriving DecidableEq, Repr

/-- Embeds `NewFSAdapter(townRoot)`. -/
def NewFSAdapter (env : Env) (townRoot : String) : FSAdapter :=
  if townRoot = "" then
    FSAdapter.mk (env.Join [env.Getenv "HOME", "gt"])
  else
    FSAdapter.mk townRoot

namespace FSAdapter

/-- Embeds `dirExists(path)`: `os.Stat` succeeds and reports a directory. -/
def dirExists (env : Env) (_a : FSAdapter) (path : String) : Bool :=
  match env.Stat path with
  | .ok info => info.IsDir
  | .error _ => false

/-- Embeds `townExists()`. -/
def townExists (env : Env) (a : FSAdapter) : Bool :=
  a.dirExists env (env.Join [a.townRoot, "mayor"])

/-- Embeds `readTownConfig()`. -/
def readTownConfig (env : Env) (a : FSAdapter) : Except String Gastown.TownConfig :=
  match env.ReadFile (env.Join [a.townRoot, "mayor", "town.json"]) with
  | .error e => .error e
  | .ok data =>
    match env.unmarshalTownConfig data with
    | .error e => .error e
    | .ok config => .ok config

/-- Embeds `getTmuxSessions()`: the keys of the returned `map[string]bool` (every
stored value is `true`). -/
def getTmuxSessions (env : Env) (_a : FSAdapter) : List String :=
  match env.tmuxListSessions with
  | .error _ => []
  | .ok output =>
    (splitLines output.data).foldl
      (fun sessions line =>
        let line := TrimSpace line
        if line ≠ [] then sessions ++ [String.mk line] else sessions)
      []

/-- Embeds `agentStatus(sessionName, sessions)`; `sessions[sessionName]` is true
exactly for the keys of the map. -/
def agentStatus (_a : FSAdapter) (sessionName : String) (sessions : List String) :
    AgentStatus :=
  if sessions.contains sessionName then AgentStatus.StatusActive
  else AgentStatus.StatusOffline

/-- Embeds `daemonRunning()`. -/
def daemonRunning (env : Env) (a : FSAdapter) : Bool :=
  match env.Stat (env.Join [a.townRoot, "mayor", "daemon.pid"]) with
  | .ok _ => true
  | .error _ =>
    match env.gtDaemonStatus a.townRoot with
    | .ok _ => true
    | .error _ => false

/-- Embeds `Convoys(ctx)`: never an error; `nil` is the empty list.  When the
decoding into the slice fails and the decoding into one record succeeds, the
slice appended to is still `nil`. -/
def Convoys (env : Env) (a : FSAdapter) : Except String (List Convoy) :=
  match env.gtConvoyList a.townRoot with
  | .error _ => .ok []
  | .ok output =>
    match env.unmarshalConvoys output with
    | .ok convoys => .ok convoys
    | .error _ =>
      match env.unmarshalConvoy output with
      | .error _ => .ok []
      | .ok convoy => .ok ([] ++ [convoy])

/-- Embeds `Mail(ctx, address)`: never an error; `nil` is the empty list. -/
def Mail (env : Env) (a : FSAdapter) (address : String) : Except String (List Message) :=
  match env.gtMailInbox a.townRoot address with
  | .error _ => .ok []
  | .ok output =>
    match env.unmarshalMessages output with
    | .error _ => .ok []
    | .ok messages => .ok messages

/-- The body of the polecat loop of `Rigs` for one entry. -/
def polecatStep (a : FSAdapter) (name : String) (sessions : List String)
    (polecats : List Agent) (pe : DirEntry) : List Agent :=
  if pe.IsDir && !HasPrefix pe.Name "." then
    polecats ++ [Agent.mk AgentRole.RolePolecat pe.Name name
      (a.agentStatus ("gt-" ++ name ++ "-" ++ pe.Name) sessions)]
  else polecats

/-- The body of the crew loop of `Rigs` for one entry. -/
def crewStep (a : FSAdapter) (name : String) (sessions : List String)
    (crew : List Agent) (ce : DirEntry) : List Agent :=
  if ce.IsDir && !HasPrefix ce.Name "." then
    crew ++ [Agent.mk AgentRole.RoleCrew ce.Name name
      (a.agentStatus ("gt-" ++ name ++ "-crew-" ++ ce.Name) sessions)]
  else crew

/-- The body of the main loop of `Rigs` for one entry of the root listing. -/
def rigStep (env : Env) (a : FSAdapter) (sessions : List String)
    (rigs : List Gastown.Rig) (entry : DirEntry) : List Gastown.Rig :=
  if !entry.IsDir then rigs
  else
    let name := entry.Name
    if name = "mayor" || name = ".beads" || name = ".git" || HasPrefix name "." then rigs
    else
      let rigPath := env.Join [a.townRoot, name]
      if !a.dirExists env (env.Join [rigPath, "polecats"]) &&
          !a.dirExists env (env.Join [rigPath, "witness"]) &&
          !a.dirExists env (env.Join [rigPath, ".beads"]) then rigs
      else
        let witness : Option Agent :=
          if a.dirExists env (env.Join [rigPath, "witness"]) then
            some (Agent.mk AgentRole.RoleWitness "witness" name
              (a.agentStatus ("gt-" ++ name ++ "-witness") sessions))
          else none
        let refinery : Option Agent :=
          if a.dirExists env (env.Join [rigPath, "refinery"]) then
            some (Agent.mk AgentRole.RoleRefinery "refinery" name
              (a.agentStatus ("gt-" ++ name ++ "-refinery") sessions))
          else none
        let polecatsDir := env.Join [rigPath, "polecats"]
        let polecats : List Agent :=
          if a.dirExists env polecatsDir then
            match env.ReadDir polecatsDir with
            | .ok pEntries => pEntries.foldl (polecatStep a name sessions) []
            | .error _ => []
          else []
        let crewDir := env.Join [rigPath, "crew"]
        let crew : List Agent :=
          if a.dirExists env crewDir then
            match env.ReadDir crewDir with
            | .ok cEntries => cEntries.foldl (crewStep a name sessions) []
            | .error _ => []
          else []
        rigs ++ [Rig.mk name rigPath witness refinery polecats crew]

/-- Embeds `Rigs(ctx)`. -/
def Rigs (env : Env) (a : FSAdapter) : Except String (List Gastown.Rig) :=
  match env.ReadDir a.townRoot with
  | .error err => .error err
  | .ok entries =>
    let sessions := a.getTmuxSessions env
    .ok (entries.foldl (rigStep env a sessions) [])

/-- Embeds `Rig(ctx, name)`: the loop returns at the first rig whose name is
the one asked for. -/
def Rig (env : Env) (a : FSAdapter) (name : String) : Except String Gastown.Rig :=
  match a.Rigs env with
  | .error err => .error err
  | .ok rigs =>
    match rigs.find? (fun rig => rig.Name == name) with
    | some rig => .ok rig
    | none => .error ("rig not found: " ++ name)

/-- Embeds `Town(ctx)`. -/
def Town (env : Env) (a : FSAdapter) : Except String Gastown.Town :=
  if !a.townExists env then
    .error ("town not found at " ++ a.townRoot)
  else
    let town : Gastown.Town := Gastown.Town.mk a.townRoot "" none none [] []
    let town : Gastown.Town :=
      match a.readTownConfig env with
      | .ok config => { town with Name := config.Name }
      | .error _ => town
    let sessions := a.getTmuxSessions env
    let town : Gastown.Town :=
      if a.dirExists env (env.Join [a.townRoot, "mayor"]) then
        { town with Mayor := some (Agent.mk AgentRole.RoleMayor "mayor" ""
            (a.agentStatus "gt-mayor" sessions)) }
      else town
    let town : Gastown.Town :=
      if a.daemonRunning env then
        { town with Deacon := some (Agent.mk AgentRole.RoleDeacon "deacon" ""
            AgentStatus.StatusActive) }
      else town
    let town : Gastown.Town :=
      match a.Rigs env with
      | .ok rigs => { town with Rigs := rigs }
      | .error _ => town
    let town : Gastown.Town :=
      match a.Convoys env with
      | .ok convoys => { town with Convoys := convoys }
      | .error _ => town
    .ok town

/-- The `ActiveAgents++` guarded by `agent.Status == StatusActive`. -/
def bumpActive (status : TownStatus) (agent : Agent) : TownStatus :=
  if agent.Status = AgentStatus.StatusActive then
    { status with ActiveAgents := status.ActiveAgents + 1 }
  else status

/-- The counting of one optional (pointer) agent in `Status`. -/
def countOptional (status : TownStatus) (agent : Option Agent) : TownStatus :=
  match agent with
  | none => status
  | some ag => bumpActive { status with TotalAgents := status.TotalAgents + 1 } ag

/-- The body of the rig loop of `Status`. -/
def statusRigStep (status : TownStatus) (rig : Gastown.Rig) : TownStatus :=
  let status : TownStatus :=
    { status with TotalAgents := status.TotalAgents + (rig.Polecats.length + rig.Crew.length) }
  let status := countOptional status rig.Witness
  let status := countOptional status rig.Refinery
  let status := rig.Polecats.foldl bumpActive status
  let status := rig.Crew.foldl bumpActive status
  status

/-- Embeds `Status(ctx)`; the returned error is always `nil`, so the result is the
`TownStatus` alone wrapped in `Except.ok`. -/
def Status (env : Env) (a : FSAdapter) : Except String Gastown.TownStatus :=
  let status : TownStatus := TownStatus.mk a.townRoot false "" 0 0 0 0
  if !a.townExists env then
    .ok { status with Healthy := false, Error := "Town not found at " ++ a.townRoot }
  else
    match a.Town env with
    | .error err => .ok { status with Healthy := false, Error := err }
    | .ok town =>
      let status : TownStatus := { status with ActiveRigs := town.Rigs.length }
      let status := town.Rigs.foldl statusRigStep status
      let status := countOptional status town.Mayor
      let status := countOptional status town.Deacon
      .ok { status with OpenConvoys := town.Convoys.length, Healthy := true }

/-- The body of the rig loop of `Agents`. -/
def agentsRigStep (agents : List Agent) (rig : Gastown.Rig) : List Agent :=
  let agents := match rig.Witness with
    | some w => agents ++ [w]
    | none => agents
  let agents := match rig.Refinery with
    | some r => agents ++ [r]
    | none => agents
  let agents := agents ++ rig.Polecats
  let agents := agents ++ rig.Crew
  agents

/-- Embeds `Agents(ctx)`. -/
def Agents (env : Env) (a : FSAdapter) : Except String (List Agent) :=
  match a.Town env with
  | .error err => .error err
  | .ok town =>
    let agents : List Agent := []
    let agents := match town.Mayor with
      | some m => agents ++ [m]
      | none => agents
    let agents := match town.Deacon with
      | some d => agents ++ [d]
      | none => agents
    .ok (town.Rigs.foldl agentsRigStep agents)

/-! ## Closed forms of the loops, used to state and prove the properties -/

/-- The test the polecat and crew loops apply to an entry. -/
def visibleDir (e : DirEntry) : Bool :=
  e.IsDir && !HasPrefix e.Name "."

/-- The polecat built for an entry. -/
def polecatOf (a : FSAdapter) (name : String) (sessions : List String) (pe : DirEntry) : Agent :=
  Agent.mk AgentRole.RolePolecat pe.Name name
    (a.agentStatus ("gt-" ++ name ++ "-" ++ pe.Name) sessions)

/-- The crew member built for an entry. -/
def crewOf (a : FSAdapter) (name : String) (sessions : List String) (ce : DirEntry) : Agent :=
  Agent.mk AgentRole.RoleCrew ce.Name name
    (a.agentStatus ("gt-" ++ name ++ "-crew-" ++ ce.Name) sessions)

/-- The acceptance test of the main loop of `Rigs`, in the words of the
discovery rule: a directory, not the mayor, not hidden, with one of the three
markers. -/
def rigAccepted (env : Env) (a : FSAdapter) (e : DirEntry) : Bool :=
  e.IsDir && e.Name != "mayor" && !HasPrefix e.Name "." &&
    (a.dirExists env (env.Join [env.Join [a.townRoot, e.Name], "polecats"]) ||
     a.dirExists env (env.Join [env.Join [a.townRoot, e.Name], "witness"]) ||
     a.dirExists env (env.Join [env.Join [a.townRoot, e.Name], ".beads"]))

/-- The agents listed under a polecats or crew directory: those of the visible
sub-directories when the directory exists and can be listed, none otherwise. -/
def listedAgents (env : Env) (a : FSAdapter) (dir : String) (mk : DirEntry → Agent) :
    List Agent :=
  if a.dirExists env dir then
    match env.ReadDir dir with
    | .ok es => (es.filter visibleDir).map mk
    | .error _ => []
  else []

/-- The rig the main loop of `Rigs` appends for an accepted entry name. -/
def rigOf (env : Env) (a : FSAdapter) (sessions : List String) (name : String) : Gastown.Rig where
  Name := name
  Path := env.Join [a.townRoot, name]
  Witness :=
    if a.dirExists env (env.Join [env.Join [a.townRoot, name], "witness"]) then
      some (Agent.mk AgentRole.RoleWitness "witness" name
        (a.agentStatus ("gt-" ++ name ++ "-witness") sessions))
    else none
  Refinery :=
    if a.dirExists env (env.Join [env.Join [a.townRoot, name], "refinery"]) then
      some (Agent.mk AgentRole.RoleRefinery "refinery" name
        (a.agentStatus ("gt-" ++ name ++ "-refinery") sessions))
    else none
  Polecats := listedAgents env a (env.Join [env.Join [a.townRoot, name], "polecats"])
    (polecatOf a name sessions)
  Crew := listedAgents env a (env.Join [env.Join [a.townRoot, name], "crew"])
    (crewOf a name sessions)

/-- The agents of one rig in the order `Agents` appends them. -/
def rigAgents (rig : Gastown.Rig) : List Agent :=
  rig.Witness.toList ++ rig.Refinery.toList ++ rig.Polecats ++ rig.Crew

/-- The number of entries of a sequence of agents whose status is Active. -/
def activeCount (agents : List Agent) : Nat :=
  (agents.filter (fun ag => decide (ag.Status = AgentStatus.StatusActive))).length

/-- The town assembled by `Town` once the marker has been found. -/
def townOf (env : Env) (a : FSAdapter) : Gastown.Town where
  Root := a.townRoot
  Name := match a.readTownConfig env with
    | .ok config => config.Name
    | .error _ => ""
  Mayor := if a.dirExists env (env.Join [a.townRoot, "mayor"]) then
      some (Agent.mk AgentRole.RoleMayor "mayor" "" (a.agentStatus "gt-mayor" (a.getTmuxSessions env)))
    else none
  Deacon := if a.daemonRunning env then
      some (Agent.mk AgentRole.RoleDeacon "deacon" "" AgentStatus.StatusActive)
    else none
  Rigs := match a.Rigs env with
    | .ok rigs => rigs
    | .error _ => []
  Convoys := match a.Convoys env with
    | .ok convoys => convoys
    | .error _ => []

/-- The agents of a town in the order `Agents` appends them. -/
def townAgents (town : Gastown.Town) : List Agent :=
  town.Mayor.toList ++ town.Deacon.toList ++ town.Rigs.flatMap rigAgents

/-- The status `Status` reports for a town it could build. -/
def statusOf (a : FSAdapter) (town : Gastown.Town) : TownStatus where
  TownRoot := a.townRoot
  Healthy := true
  Error := ""
  ActiveRigs := town.Rigs.length
  TotalAgents := (townAgents town).length
  ActiveAgents := activeCount (townAgents town)
  OpenConvoys := town.Convoys.length

end FSAdapter

/-! ## Concrete snapshots -/

/-- Directories of the sample town. -/
def sampleDirs : List String :=
  ["/town", "/town/mayor", "/town/alpha", "/town/alpha/polecats",
   "/town/alpha/polecats/p1"]

/-- A snapshot with `mayor/` and `alpha/polecats/p1/` under `/town`, one live
session `gt-alpha-p1`, no `gt` tool and no configuration file. -/
def sampleEnv : Env where
  Join := fun elems => "/".intercalate elems
  Stat := fun path =>
    if sampleDirs.contains path then .ok (FileInfo.mk true) else .error "no such file or directory"
  ReadDir := fun path =>
    if path = "/town" then .ok [DirEntry.mk "alpha" true, DirEntry.mk "mayor" true]
    else if path = "/town/alpha" then .ok [DirEntry.mk "polecats" true]
    else if path = "/town/alpha/polecats" then .ok [DirEntry.mk "p1" true]
    else if sampleDirs.contains path then .ok []
    else .error "no such file or directory"
  ReadFile := fun _ => .error "no such file or directory"
  Getenv := fun _ => ""
  tmuxListSessions := .ok "gt-alpha-p1\n"
  gtDaemonStatus := fun _ => .error "executable file not found"
  gtConvoyList := fun _ => .error "executable file not found"
  unmarshalTownConfig := fun _ => .error "unexpected end of JSON input"
  unmarshalConvoys := fun _ => .error "unexpected end of JSON input"
  unmarshalConvoy := fun _ => .error "unexpected end of JSON input"
  gtMailInbox := fun _ _ => .error "executable file not found"
  unmarshalMessages := fun _ => .error "unexpected end of JSON input"
  unmarshalMessage := fun _ => .error "unexpected end of JSON input"

/-- The rigs of the sample town. -/
def sampleRigs : List Rig :=
  [Rig.mk "alpha" "/town/alpha" none none
    [Agent.mk AgentRole.RolePolecat "p1" "alpha" AgentStatus.StatusActive] []]

/-- Directories of the town with a daemon PID file. -/
def pidDirs : List String :=
  ["/town", "/town/mayor", "/town/alpha", "/town/alpha/witness", "/town/alpha/refinery",
   "/town/alpha/polecats", "/town/alpha/polecats/p1", "/town/alpha/crew",
   "/town/alpha/crew/c1"]

/-- A snapshot where `tmux` cannot be run: `/town` has `mayor/daemon.pid` and
a rig `alpha` with a witness, a refinery, a polecat `p1` and a crew member
`c1`; the `gt` tool is not installed. -/
def pidEnv : Env where
  Join := fun elems => "/".intercalate elems
  Stat := fun path =>
    if pidDirs.contains path then .ok (FileInfo.mk true)
    else if path = "/town/mayor/daemon.pid" then .ok (FileInfo.mk false)
    else .error "no such file or directory"
  ReadDir := fun path =>
    if path = "/town" then .ok [DirEntry.mk "alpha" true, DirEntry.mk "mayor" true]
    else if path = "/town/mayor" then .ok [DirEntry.mk "daemon.pid" false]
    else if path = "/town/alpha" then
      .ok [DirEntry.mk "crew" true, DirEntry.mk "polecats" true, DirEntry.mk "refinery" true,
        DirEntry.mk "witness" true]
    else if path = "/town/alpha/polecats" then .ok [DirEntry.mk "p1" true]
    else if path = "/town/alpha/crew" then .ok [DirEntry.mk "c1" true]
    else if pidDirs.contains path then .ok []
    else .error "no such file or directory"
  ReadFile := fun path =>
    if path = "/town/mayor/daemon.pid" then .ok "4242\n" else .error "no such file or directory"
  Getenv := fun _ => ""
  tmuxListSessions := .error "executable file not found"
  gtDaemonStatus := fun _ => .error "executable file not found"
  gtConvoyList := fun _ => .error "executable file not found"
  unmarshalTownConfig := fun _ => .error "unexpected end of JSON input"
  unmarshalConvoys := fun _ => .error "unexpected end of JSON input"
  unmarshalConvoy := fun _ => .error "unexpected end of JSON input"
  gtMailInbox := fun _ _ => .error "executable file not found"
  unmarshalMessages := fun _ => .error "unexpected end of JSON input"
  unmarshalMessage := fun _ => .error "unexpected end of JSON input"

/-- A snapshot of the town `/town` holding only `mayor/town.json` with the
text of the object whose `name` is `acme`; `tmux` and `gt` are not installed. -/
def acmeEnv : Env where
  Join := fun elems => "/".intercalate elems
  Stat := fun path =>
    if path = "/town" ∨ path = "/town/mayor" then .ok (FileInfo.mk true)
    else if path = "/town/mayor/town.json" then .ok (FileInfo.mk false)
    else .error "no such file or directory"
  ReadDir := fun path =>
    if path = "/town" then .ok [DirEntry.mk "mayor" true]
    else if path = "/town/mayor" then .ok [DirEntry.mk "town.json" false]
    else .error "no such file or directory"
  ReadFile := fun path =>
    if path = "/town/mayor/town.json" then .ok "\x7b\"name\":\"acme\"\x7d"
    else .error "no such file or directory"
  Getenv := fun _ => ""
  tmuxListSessions := .error "executable file not found"
  gtDaemonStatus := fun _ => .error "executable file not found"
  gtConvoyList := fun _ => .error "executable file not found"
  unmarshalTownConfig := fun data =>
    if data = "\x7b\"name\":\"acme\"\x7d" then .ok (TownConfig.mk "acme")
    else .error "invalid character"
  unmarshalConvoys := fun _ => .error "unexpected end of JSON input"
  unmarshalConvoy := fun _ => .error "unexpected end of JSON input"
  gtMailInbox := fun _ _ => .error "executable file not found"
  unmarshalMessages := fun _ => .error "unexpected end of JSON input"
  unmarshalMessage := fun _ => .error "unexpected end of JSON input"

/-- A snapshot where the root `/town` can be searched but not listed: the
marker `/town/mayor` is a directory and `os.ReadDir` of `/town` fails. -/
def lockedEnv : Env where
  Join := fun elems => "/".intercalate elems
  Stat := fun path =>
    if path = "/town" ∨ path = "/town/mayor" then .ok (FileInfo.mk true)
    else .error "no such file or directory"
  ReadDir := fun path =>
    if path = "/town" then .error "open /town: permission denied"
    else if path = "/town/mayor" then .ok []
    else .error "no such file or directory"
  ReadFile := fun _ => .error "no such file or directory"
  Getenv := fun _ => ""
  tmuxListSessions := .ok ""
  gtDaemonStatus := fun _ => .error "executable file not found"
  gtConvoyList := fun _ => .error "executable file not found"
  unmarshalTownConfig := fun _ => .error "unexpected end of JSON input"
  unmarshalConvoys := fun _ => .error "unexpected end of JSON input"
  unmarshalConvoy := fun _ => .error "unexpected end of JSON input"
  gtMailInbox := fun _ _ => .error "executable file not found"
  unmarshalMessages := fun _ => .error "unexpected end of JSON input"
  unmarshalMessage := fun _ => .error "unexpected end of JSON input"

/-- A snapshot where the `gt` tool is installed and prints a single JSON
object, not an array, for both `gt convoy list --json` and
`gt mail inbox --json`: the text decodes as one record and not as a sequence. -/
def gtEnv : Env where
  Join := fun elems => "/".intercalate elems
  Stat := fun path =>
    if path = "/town" ∨ path = "/town/mayor" then .ok (FileInfo.mk true)
    else .error "no such file or directory"
  ReadDir := fun path =>
    if path = "/town" then .ok [DirEntry.mk "mayor" true]
    else if path = "/town/mayor" then .ok []
    else .error "no such file or directory"
  ReadFile := fun _ => .error "no such file or directory"
  Getenv := fun key => if key = "HOME" then "/home/gt" else ""
  tmuxListSessions := .ok "gt-mayor\n"
  gtDaemonStatus := fun _ => .ok ()
  gtConvoyList := fun _ => .ok "\x7b\"id\":\"cv-1\"\x7d"
  unmarshalTownConfig := fun _ => .error "unexpected end of JSON input"
  unmarshalConvoys := fun _ =>
    .error "json: cannot unmarshal object into Go value of type []gastown.Convoy"
  unmarshalConvoy := fun data =>
    if data = "\x7b\"id\":\"cv-1\"\x7d" then .ok (Convoy.mk data)
    else .error "invalid character"
  gtMailInbox := fun _ _ => .ok "\x7b\"id\":\"msg-1\"\x7d"
  unmarshalMessages := fun _ =>
    .error "json: cannot unmarshal object into Go value of type []gastown.Message"
  unmarshalMessage := fun data =>
    if data = "\x7b\"id\":\"msg-1\"\x7d" then .ok (Message.mk data)
    else .error "invalid character"

/-- Directories of the town whose session names collide. -/
def collisionDirs : List String :=
  ["/town", "/town/mayor", "/town/a", "/town/a/witness", "/town/a/polecats",
   "/town/a/polecats/b-c", "/town/a/polecats/crew-x", "/town/a/polecats/witness",
   "/town/a/crew", "/town/a/crew/x", "/town/a-b", "/town/a-b/polecats",
   "/town/a-b/polecats/c"]

/-- A snapshot, for any outcome of the session listing, of a town with the
rig `a` (a witness, the polecats `b-c`, `crew-x` and `witness`, the crew
member `x`) and the rig `a-b` (the polecat `c`). -/
def collisionEnv (tmux : Except String String) : Env where
  Join := fun elems => "/".intercalate elems
  Stat := fun path =>
    if collisionDirs.contains path then .ok (FileInfo.mk true)
    else .error "no such file or directory"
  ReadDir := fun path =>
    if path = "/town" then
      .ok [DirEntry.mk "a" true, DirEntry.mk "a-b" true, DirEntry.mk "mayor" true]
    else if path = "/town/a" then
      .ok [DirEntry.mk "crew" true, DirEntry.mk "polecats" true, DirEntry.mk "witness" true]
    else if path = "/town/a/polecats" then
      .ok [DirEntry.mk "b-c" true, DirEntry.mk "crew-x" true, DirEntry.mk "witness" true]
    else if path = "/town/a/crew" then .ok [DirEntry.mk "x" true]
    else if path = "/town/a-b" then .ok [DirEntry.mk "polecats" true]
    else if path = "/town/a-b/polecats" then .ok [DirEntry.mk "c" true]
    else if collisionDirs.contains path then .ok []
    else .error "no such file or directory"
  ReadFile := fun _ => .error "no such file or directory"
  Getenv := fun _ => ""
  tmuxListSessions := tmux
  gtDaemonStatus := fun _ => .error "executable file not found"
  gtConvoyList := fun _ => .error "executable file not found"
  unmarshalTownConfig := fun _ => .error "unexpected end of JSON input"
  unmarshalConvoys := fun _ => .error "unexpected end of JSON input"
  unmarshalConvoy := fun _ => .error "unexpected end of JSON input"
  gtMailInbox := fun _ _ => .error "executable file not found"
  unmarshalMessages := fun _ => .error "unexpected end of JSON input"
  unmarshalMessage := fun _ => .error "unexpected end of JSON input"

/-! ## The terminal model (`internal/tui/model.go`)

The `int` fields are integers: `Update` increments a cursor only below a
length and decrements it only above zero, so no operation wraps. -/

/-- The `View` constants of the terminal model. -/
inductive Tui.View where
  | ViewBoard
  | ViewIssue
  deriving DecidableEq, Repr

/-- An issue as `Update` uses it: `model.Issue` is declared outside the files
at hand and `Update` reads only its `ID`. -/
structure Tui.Issue where
  ID : String
  deriving DecidableEq, Repr

/-- A board column as `Update` uses it: `model.Column` is declared outside the
files at hand and `Update` reads only its `Issues`. -/
structure Tui.Column where
  Issues : List Tui.Issue
  deriving DecidableEq, Repr

/-- A `BoardResponse` value. -/
structure Tui.BoardResponse where
  Columns : List Tui.Column
  Total : Int
  deriving DecidableEq, Repr

/-- The key bindings: each binding is the list of the keys it matches. -/
structure Tui.keyMap where
  Left : List String
  Right : List String
  Up : List String
  Down : List String
  Enter : List String
  Back : List String
  Refresh : List String
  Quit : List String
  Help : List String
  deriving DecidableEq, Repr

/-- The bindings of `defaultKeys`. -/
def Tui.defaultKeys : Tui.keyMap where
  Left := ["left", "h"]
  Right := ["right", "l"]
  Up := ["up", "k"]
  Down := ["down", "j"]
  Enter := ["enter"]
  Back := ["esc", "backspace"]
  Refresh := ["r"]
  Quit := ["q", "ctrl+c"]
  Help := ["?"]

/-- The test `key.Matches(msg, binding)` for an enabled binding, on the text
`msg.String()` of the key. -/
def Tui.Matches (msg : String) (binding : List String) : Bool :=
  binding.contains msg

/-- The terminal `Model`: `board` and `issue` are pointers, `err` is an error
value (`nil` is `none`), `cursor`, `issueCur`, `width` and `height` are `int`s;
of the spinner only an abstract state is kept, of the help only the two
fields `Update` writes, of the client only its URL. -/
structure Tui.Model where
  client : String
  board : Option Tui.BoardResponse
  issue : Option Tui.Issue
  view : Tui.View
  err : Option String
  loading : Bool
  spinner : Nat
  helpShowAll : Bool
  helpWidth : Int
  keys : Tui.keyMap
  cursor : Int
  issueCur : Int
  width : Int
  height : Int
  deriving Repr

/-- The messages `Update` distinguishes; `other` is any message of another
type. -/
inductive Tui.Msg where
  | WindowSizeMsg (Width Height : Int)
  | KeyMsg (key : String)
  | TickMsg
  | boardMsg (board : Option Tui.BoardResponse)
  | issueMsg (issue : Option Tui.Issue)
  | errMsg (err : String)
  | other
  deriving DecidableEq, Repr

/-- The commands `Update` returns. -/
inductive Tui.Cmd where
  | none
  | Quit
  | tickAndFetchBoard
  | tickAndFetchIssue (id : String)
  | fromSpinner
  deriving DecidableEq, Repr

/-- Embeds `New(apiURL)`; the fields not listed in the literal are zero. -/
def Tui.New (apiURL : String) : Tui.Model where
  client := apiURL
  board := none
  issue := none
  view := Tui.View.ViewBoard
  err := none
  loading := true
  spinner := 0
  helpShowAll := false
  helpWidth := 0
  keys := Tui.defaultKeys
  cursor := 0
  issueCur := 0
  width := 80
  height := 24

/-- The slice indexing `xs[i]` of Go: it fails (the program panics) unless
`0 ≤ i < len(xs)`. -/
def Tui.index {α : Type} (xs : List α) (i : Int) : Except String α :=
  if i < 0 then .error "index out of range"
  else
    match xs[i.toNat]? with
    | some x => .ok x
    | none => .error "index out of range"

/-- The `Down` case of `Update`. -/
def Tui.updateDown (m : Tui.Model) : Except String (Tui.Model × Tui.Cmd) :=
  match m.board with
  | none => .ok (m, Tui.Cmd.none)
  | some board =>
    if m.view = Tui.View.ViewBoard ∧ m.cursor < (board.Columns.length : Int) then
      match Tui.index board.Columns m.cursor with
      | .error e => .error e
      | .ok col =>
        if m.issueCur < (col.Issues.length : Int) - 1 then
          .ok ({ m with issueCur := m.issueCur + 1 }, Tui.Cmd.none)
        else .ok (m, Tui.Cmd.none)
    else .ok (m, Tui.Cmd.none)

/-- The `Enter` case of `Update`. -/
def Tui.updateEnter (m : Tui.Model) : Except String (Tui.Model × Tui.Cmd) :=
  match m.board with
  | none => .ok (m, Tui.Cmd.none)
  | some board =>
    if m.view = Tui.View.ViewBoard then
      if m.cursor < (board.Columns.length : Int) then
        match Tui.index board.Columns m.cursor with
        | .error e => .error e
        | .ok col =>
          if m.issueCur < (col.Issues.length : Int) then
            match Tui.index col.Issues m.issueCur with
            | .error e => .error e
            | .ok issue => .ok ({ m with loading := true }, Tui.Cmd.tickAndFetchIssue issue.ID)
          else .ok (m, Tui.Cmd.none)
      else .ok (m, Tui.Cmd.none)
    else .ok (m, Tui.Cmd.none)

/-- The `tea.KeyMsg` case of `Update`: the first binding that matches decides. -/
def Tui.updateKey (m : Tui.Model) (key : String) : Except String (Tui.Model × Tui.Cmd) :=
  if Tui.Matches key m.keys.Quit then .ok (m, Tui.Cmd.Quit)
  else if Tui.Matches key m.keys.Help then
    .ok ({ m with helpShowAll := !m.helpShowAll }, Tui.Cmd.none)
  else if Tui.Matches key m.keys.Refresh then
    .ok ({ m with loading := true, err := none }, Tui.Cmd.tickAndFetchBoard)
  else if Tui.Matches key m.keys.Back then
    if m.view = Tui.View.ViewIssue then
      .ok ({ m with view := Tui.View.ViewBoard, issue := none }, Tui.Cmd.none)
    else .ok (m, Tui.Cmd.none)
  else if Tui.Matches key m.keys.Left then
    if m.view = Tui.View.ViewBoard ∧ m.board.isSome = true ∧ m.cursor > 0 then
      .ok ({ m with cursor := m.cursor - 1, issueCur := 0 }, Tui.Cmd.none)
    else .ok (m, Tui.Cmd.none)
  else if Tui.Matches key m.keys.Right then
    match m.board with
    | none => .ok (m, Tui.Cmd.none)
    | some board =>
      if m.view = Tui.View.ViewBoard ∧ m.cursor < (board.Columns.length : Int) - 1 then
        .ok ({ m with cursor := m.cursor + 1, issueCur := 0 }, Tui.Cmd.none)
      else .ok (m, Tui.Cmd.none)
  else if Tui.Matches key m.keys.Up then
    if m.view = Tui.View.ViewBoard ∧ m.issueCur > 0 then
      .ok ({ m with issueCur := m.issueCur - 1 }, Tui.Cmd.none)
    else .ok (m, Tui.Cmd.none)
  else if Tui.Matches key m.keys.Down then Tui.updateDown m
  else if Tui.Matches key m.keys.Enter then Tui.updateEnter m
  else .ok (m, Tui.Cmd.none)

/-- Embeds `Update(msg)`: the new model and the command, or the failure of an
index expression.  The spinner's own update is the parameter `spinnerUpdate`. -/
def Tui.Update (spinnerUpdate : Nat → Nat) (m : Tui.Model) (msg : Tui.Msg) :
    Except String (Tui.Model × Tui.Cmd) :=
  match msg with
  | .WindowSizeMsg w h =>
    .ok ({ m with width := w, height := h, helpWidth := w }, Tui.Cmd.none)
  | .KeyMsg key => Tui.updateKey m key
  | .TickMsg => .ok ({ m with spinner := spinnerUpdate m.spinner }, Tui.Cmd.fromSpinner)
  | .boardMsg board => .ok ({ m with loading := false, board := board, err := none }, Tui.Cmd.none)
  | .issueMsg issue =>
    .ok ({ m with loading := false, issue := issue, view := Tui.View.ViewIssue, err := none },
      Tui.Cmd.none)
  | .errMsg err => .ok ({ m with loading := false, err := some err }, Tui.Cmd.none)
  | .other => .ok (m, Tui.Cmd.none)

/-- The model after a sequence of messages, each handled by `Update`; it
fails as soon as one `Update` fails. -/
def Tui.run (spinnerUpdate : Nat → Nat) (m : Tui.Model) : List Tui.Msg → Except String Tui.Model
  | [] => .ok m
  | msg :: msgs =>
    match Tui.Update spinnerUpdate m msg with
    | .error e => .error e
    | .ok (m2, _) => Tui.run spinnerUpdate m2 msgs

/-- A board with two columns of two and one issues. -/
def Tui.sampleBoard : Tui.BoardResponse where
  Columns := [Tui.Column.mk [Tui.Issue.mk "gvi-1", Tui.Issue.mk "gvi-2"],
    Tui.Column.mk [Tui.Issue.mk "gvi-3"]]
  Total := 3

/-- A board without columns. -/
def Tui.emptyBoard : Tui.BoardResponse where
  Columns := []
  Total := 0

/-! ## Lemmas on the loops and on the operations -/

namespace FSAdapter

theorem foldl_polecatStep (a : FSAdapter) (name : String) (sessions : List String)
    (es : List DirEntry) (acc : List Agent) :
    es.foldl (polecatStep a name sessions) acc =
      acc ++ (es.filter visibleDir).map (polecatOf a name sessions) := by
  induction es generalizing acc with
  | nil => simp
  | cons e es ih =>
    rw [List.foldl_cons, ih]
    by_cases h : visibleDir e = true
    · have h2 : (e.IsDir && !HasPrefix e.Name ".") = true := h
      simp [polecatStep, h2, h, List.filter_cons, polecatOf]
    · have h2 : ¬ (e.IsDir && !HasPrefix e.Name ".") = true := h
      simp [polecatStep, h2, h, List.filter_cons]

theorem foldl_crewStep (a : FSAdapter) (name : String) (sessions : List String)
    (es : List DirEntry) (acc : List Agent) :
    es.foldl (crewStep a name sessions) acc =
      acc ++ (es.filter visibleDir).map (crewOf a name sessions) := by
  induction es generalizing acc with
  | nil => simp
  | cons e es ih =>
    rw [List.foldl_cons, ih]
    by_cases h : visibleDir e = true
    · have h2 : (e.IsDir && !HasPrefix e.Name ".") = true := h
      simp [crewStep, h2, h, List.filter_cons, crewOf]
    · have h2 : ¬ (e.IsDir && !HasPrefix e.Name ".") = true := h
      simp [crewStep, h2, h, List.filter_cons]

theorem hasPrefix_dot_beads : HasPrefix ".beads" "." = true := by decide
theorem hasPrefix_dot_git : HasPrefix ".git" "." = true := by decide

theorem rigStep_eq (env : Env) (a : FSAdapter) (sessions : List String)
    (rigs : List Gastown.Rig) (e : DirEntry) :
    rigStep env a sessions rigs e =
      if rigAccepted env a e then rigs ++ [rigOf env a sessions e.Name] else rigs := by
  unfold rigStep rigAccepted
  cases hd : e.IsDir
  · simp
  · by_cases hm : e.Name = "mayor"
    · simp [hm]
    · by_cases hp : HasPrefix e.Name "." = true
      · simp [hp]
      · have hb : e.Name ≠ ".beads" := fun h => hp (h ▸ hasPrefix_dot_beads)
        have hg : e.Name ≠ ".git" := fun h => hp (h ▸ hasPrefix_dot_git)
        simp only [Bool.not_eq_true] at hp
        cases h1 : a.dirExists env (env.Join [env.Join [a.townRoot, e.Name], "polecats"]) <;>
        cases h2 : a.dirExists env (env.Join [env.Join [a.townRoot, e.Name], "witness"]) <;>
        cases h3 : a.dirExists env (env.Join [env.Join [a.townRoot, e.Name], ".beads"]) <;>
        cases h4 : a.dirExists env (env.Join [env.Join [a.townRoot, e.Name], "crew"]) <;>
        cases h5 : env.ReadDir (env.Join [env.Join [a.townRoot, e.Name], "polecats"]) <;>
        cases h6 : env.ReadDir (env.Join [env.Join [a.townRoot, e.Name], "crew"]) <;>
        simp [h4, h5, h6, hm, hb, hg, hp, h1, h2, h3, rigOf, listedAgents, foldl_polecatStep, foldl_crewStep]

theorem foldl_rigStep (env : Env) (a : FSAdapter) (sessions : List String)
    (es : List DirEntry) (acc : List Gastown.Rig) :
    es.foldl (rigStep env a sessions) acc =
      acc ++ (es.filter (rigAccepted env a)).map (fun e => rigOf env a sessions e.Name) := by
  induction es generalizing acc with
  | nil => simp
  | cons e es ih =>
    rw [List.foldl_cons, ih, rigStep_eq]
    by_cases h : rigAccepted env a e = true
    · simp [h, List.filter_cons]
    · simp [h, List.filter_cons]

theorem Rigs_eq (env : Env) (a : FSAdapter) :
    a.Rigs env =
      match env.ReadDir a.townRoot with
      | .error err => .error err
      | .ok entries =>
        .ok ((entries.filter (rigAccepted env a)).map
          (fun e => rigOf env a (a.getTmuxSessions env) e.Name)) := by
  unfold Rigs
  cases env.ReadDir a.townRoot with
  | error err => rfl
  | ok entries => simp [foldl_rigStep]

theorem activeCount_nil : activeCount [] = 0 := rfl

theorem activeCount_append (l₁ l₂ : List Agent) :
    activeCount (l₁ ++ l₂) = activeCount l₁ + activeCount l₂ := by
  simp [activeCount]

theorem activeCount_cons (ag : Agent) (l : List Agent) :
    activeCount (ag :: l) =
      (if ag.Status = AgentStatus.StatusActive then 1 else 0) + activeCount l := by
  by_cases h : ag.Status = AgentStatus.StatusActive
  · simp [activeCount, h, List.filter_cons]; omega
  · simp [activeCount, h, List.filter_cons]

theorem foldl_agentsRigStep (rigs : List Gastown.Rig) (acc : List Agent) :
    rigs.foldl agentsRigStep acc = acc ++ rigs.flatMap rigAgents := by
  induction rigs generalizing acc with
  | nil => simp
  | cons r rs ih =>
    rw [List.foldl_cons, ih]
    cases hw : r.Witness <;> cases hr : r.Refinery <;>
      simp [agentsRigStep, rigAgents, hw, hr, List.flatMap_cons]

theorem foldl_bumpActive (l : List Agent) (st : TownStatus) :
    l.foldl bumpActive st =
      { st with ActiveAgents := st.ActiveAgents + activeCount l } := by
  induction l generalizing st with
  | nil => simp [activeCount_nil]
  | cons ag l ih =>
    rw [List.foldl_cons, ih, activeCount_cons]
    by_cases h : ag.Status = AgentStatus.StatusActive
    · simp [bumpActive, h]; omega
    · simp [bumpActive, h]

theorem countOptional_eq (st : TownStatus) (o : Option Agent) :
    countOptional st o =
      { st with TotalAgents := st.TotalAgents + o.toList.length,
                ActiveAgents := st.ActiveAgents + activeCount o.toList } := by
  cases o with
  | none => simp [countOptional, activeCount_nil]
  | some ag =>
    by_cases h : ag.Status = AgentStatus.StatusActive
    · simp [countOptional, bumpActive, h, activeCount_cons, activeCount_nil]
    · simp [countOptional, bumpActive, h, activeCount_cons, activeCount_nil]

theorem statusRigStep_eq (st : TownStatus) (r : Gastown.Rig) :
    statusRigStep st r =
      { st with TotalAgents := st.TotalAgents + (rigAgents r).length,
                ActiveAgents := st.ActiveAgents + activeCount (rigAgents r) } := by
  simp only [statusRigStep, foldl_bumpActive, countOptional_eq, rigAgents, activeCount_append,
    List.length_append]
  congr 1 <;> omega

theorem foldl_statusRigStep (rigs : List Gastown.Rig) (st : TownStatus) :
    rigs.foldl statusRigStep st =
      { st with TotalAgents := st.TotalAgents + (rigs.flatMap rigAgents).length,
                ActiveAgents := st.ActiveAgents + activeCount (rigs.flatMap rigAgents) } := by
  induction rigs generalizing st with
  | nil => simp [activeCount_nil]
  | cons r rs ih =>
    rw [List.foldl_cons, ih, statusRigStep_eq]
    simp only [List.flatMap_cons, List.length_append, activeCount_append]
    congr 1 <;> omega

theorem Town_eq (env : Env) (a : FSAdapter) :
    a.Town env =
      if a.townExists env then .ok (a.townOf env)
      else .error ("town not found at " ++ a.townRoot) := by
  unfold Town townOf
  cases hex : a.townExists env
  · simp
  · simp only [Bool.not_true, Bool.false_eq_true, if_false, if_true]
    cases a.readTownConfig env <;> cases a.Rigs env <;> cases a.Convoys env <;>
      cases a.dirExists env (env.Join [a.townRoot, "mayor"]) <;>
      cases a.daemonRunning env <;> rfl

theorem Agents_eq (env : Env) (a : FSAdapter) :
    a.Agents env =
      match a.Town env with
      | .error err => .error err
      | .ok town => .ok (townAgents town) := by
  unfold Agents
  cases a.Town env with
  | error err => rfl
  | ok town =>
    simp only [foldl_agentsRigStep, townAgents]
    cases town.Mayor <;> cases town.Deacon <;> simp

theorem Status_eq (env : Env) (a : FSAdapter) :
    a.Status env =
      if a.townExists env then .ok (statusOf a (a.townOf env))
      else .ok (TownStatus.mk a.townRoot false ("Town not found at " ++ a.townRoot) 0 0 0 0) := by
  unfold Status
  cases hex : a.townExists env
  · simp
  · have htown : a.Town env = .ok (a.townOf env) := by rw [Town_eq, if_pos hex]
    simp only [htown, Bool.not_true, Bool.false_eq_true, if_false, if_true,
      foldl_statusRigStep, countOptional_eq, statusOf, townAgents, List.length_append,
      activeCount_append]
    congr 2 <;> omega

theorem mem_Rigs (env : Env) (a : FSAdapter) (rigs : List Gastown.Rig)
    (h : a.Rigs env = .ok rigs) (r : Gastown.Rig) (hr : r ∈ rigs) :
    r = rigOf env a (a.getTmuxSessions env) r.Name := by
  rw [Rigs_eq] at h
  cases hl : env.ReadDir a.townRoot with
  | error err => rw [hl] at h; simp at h
  | ok entries =>
    rw [hl] at h
    injection h with h
    subst h
    obtain ⟨e, _, rfl⟩ := List.mem_map.1 hr
    rfl

theorem agentStatus_active_iff (a : FSAdapter) (name : String) (sessions : List String) :
    a.agentStatus name sessions = AgentStatus.StatusActive ↔ name ∈ sessions := by
  unfold agentStatus
  by_cases h : name ∈ sessions
  · simp [h]
  · simp [h]

theorem agentStatus_offline_iff (a : FSAdapter) (name : String) (sessions : List String) :
    a.agentStatus name sessions = AgentStatus.StatusOffline ↔ name ∉ sessions := by
  unfold agentStatus
  by_cases h : name ∈ sessions
  · simp [h]
  · simp [h]

theorem agentStatus_nil (a : FSAdapter) (name : String) :
    a.agentStatus name [] = AgentStatus.StatusOffline := rfl

theorem mem_rigAgents_rigOf (env : Env) (a : FSAdapter) (sessions : List String)
    (name : String) (ag : Agent) (h : ag ∈ rigAgents (rigOf env a sessions name)) :
    ag.Role ≠ AgentRole.RoleDeacon ∧ ∃ s, ag.Status = a.agentStatus s sessions := by
  simp only [rigAgents, rigOf, listedAgents, List.mem_append] at h
  rcases h with ((h | h) | h) | h
  · cases hd : a.dirExists env (env.Join [env.Join [a.townRoot, name], "witness"])
    · simp [hd] at h
    · simp [hd] at h; subst h; exact ⟨by simp, _, rfl⟩
  · cases hd : a.dirExists env (env.Join [env.Join [a.townRoot, name], "refinery"])
    · simp [hd] at h
    · simp [hd] at h; subst h; exact ⟨by simp, _, rfl⟩
  · cases hd : a.dirExists env (env.Join [env.Join [a.townRoot, name], "polecats"])
    · simp [hd] at h
    · cases hl : env.ReadDir (env.Join [env.Join [a.townRoot, name], "polecats"]) with
      | error e => simp [hd, hl] at h
      | ok es =>
        simp only [hd, hl, if_true] at h
        obtain ⟨e, _, rfl⟩ := List.mem_map.1 h
        exact ⟨by simp [polecatOf], _, rfl⟩
  · cases hd : a.dirExists env (env.Join [env.Join [a.townRoot, name], "crew"])
    · simp [hd] at h
    · cases hl : env.ReadDir (env.Join [env.Join [a.townRoot, name], "crew"]) with
      | error e => simp [hd, hl] at h
      | ok es =>
        simp only [hd, hl, if_true] at h
        obtain ⟨e, _, rfl⟩ := List.mem_map.1 h
        exact ⟨by simp [crewOf], _, rfl⟩

theorem getTmuxSessions_of_error (env : Env) (a : FSAdapter) (e : String)
    (h : env.tmuxListSessions = .error e) : a.getTmuxSessions env = [] := by
  simp [getTmuxSessions, h]

theorem Rigs_offline_of_no_sessions (env : Env) (a : FSAdapter)
    (hs : a.getTmuxSessions env = []) (rigs : List Gastown.Rig) (h : a.Rigs env = .ok rigs) :
    ∀ r ∈ rigs, ∀ ag ∈ rigAgents r,
      ag.Role ≠ AgentRole.RoleDeacon ∧ ag.Status = AgentStatus.StatusOffline := by
  intro r hr ag hag
  have hform := mem_Rigs env a rigs h r hr
  rw [hform, hs] at hag
  obtain ⟨hrole, s, hst⟩ := mem_rigAgents_rigOf env a [] r.Name ag hag
  exact ⟨hrole, hst.trans (agentStatus_nil a s)⟩

theorem Town_ok_eq (env : Env) (a : FSAdapter) (t : Gastown.Town) (ht : a.Town env = .ok t) :
    t = a.townOf env := by
  rw [Town_eq] at ht
  cases hex : a.townExists env
  · simp [hex] at ht
  · rw [if_pos hex] at ht
    injection ht with ht
    exact ht.symm

theorem Town_of_marker (env : Env) (a : FSAdapter)
    (h : a.dirExists env (env.Join [a.townRoot, "mayor"]) = true) :
    a.Town env = .ok (a.townOf env) := by
  have hex : a.townExists env = true := h
  rw [Town_eq, if_pos hex]

theorem daemonRunning_iff (env : Env) (a : FSAdapter) :
    a.daemonRunning env = true ↔
      ((∃ info, env.Stat (env.Join [a.townRoot, "mayor", "daemon.pid"]) = .ok info) ∨
       ((∃ e, env.Stat (env.Join [a.townRoot, "mayor", "daemon.pid"]) = .error e) ∧
         env.gtDaemonStatus a.townRoot = .ok ())) := by
  unfold daemonRunning
  cases hs : env.Stat (env.Join [a.townRoot, "mayor", "daemon.pid"]) with
  | ok info => simp
  | error e =>
    cases hg : env.gtDaemonStatus a.townRoot with
    | ok u => simp
    | error e2 => simp

theorem Rigs_names (env : Env) (a : FSAdapter) (rigs : List Gastown.Rig)
    (h : a.Rigs env = .ok rigs) (r : Gastown.Rig) (hr : r ∈ rigs) :
    r.Name ≠ "mayor" ∧ HasPrefix r.Name "." = false := by
  rw [Rigs_eq] at h
  cases hl : env.ReadDir a.townRoot with
  | error err => rw [hl] at h; simp at h
  | ok entries =>
    rw [hl] at h
    injection h with h
    subst h
    obtain ⟨e, he, rfl⟩ := List.mem_map.1 hr
    have hacc := (List.mem_filter.1 he).2
    simp only [rigAccepted, Bool.and_eq_true, bne_iff_ne, ne_eq, Bool.not_eq_true',
      Bool.or_eq_true] at hacc
    exact ⟨hacc.1.1.2, hacc.1.2⟩

theorem Rig_eq_of_ok (env : Env) (a : FSAdapter) (name : String) (rigs : List Gastown.Rig)
    (h : a.Rigs env = .ok rigs) :
    a.Rig env name =
      match rigs.find? (fun rig => rig.Name == name) with
      | some rig => .ok rig
      | none => .error ("rig not found: " ++ name) := by
  unfold Rig
  rw [h]

theorem rigOf_witness (env : Env) (a : FSAdapter) (sessions : List String) (name : String)
    (w : Agent) (h : (rigOf env a sessions name).Witness = some w) :
    w = Agent.mk AgentRole.RoleWitness "witness" name
      (a.agentStatus ("gt-" ++ name ++ "-witness") sessions) := by
  simp only [rigOf] at h
  split at h
  · injection h with h; exact h.symm
  · simp at h

theorem rigOf_polecat (env : Env) (a : FSAdapter) (sessions : List String) (name : String)
    (p : Agent) (h : p ∈ (rigOf env a sessions name).Polecats) :
    p = Agent.mk AgentRole.RolePolecat p.Name name
      (a.agentStatus ("gt-" ++ name ++ "-" ++ p.Name) sessions) := by
  simp only [rigOf, listedAgents] at h
  cases hd : a.dirExists env (env.Join [env.Join [a.townRoot, name], "polecats"])
  · simp [hd] at h
  · cases hl : env.ReadDir (env.Join [env.Join [a.townRoot, name], "polecats"]) with
    | error e => simp [hd, hl] at h
    | ok es =>
      simp only [hd, hl, if_true] at h
      obtain ⟨e, _, rfl⟩ := List.mem_map.1 h
      rfl

theorem rigOf_crew (env : Env) (a : FSAdapter) (sessions : List String) (name : String)
    (c : Agent) (h : c ∈ (rigOf env a sessions name).Crew) :
    c = Agent.mk AgentRole.RoleCrew c.Name name
      (a.agentStatus ("gt-" ++ name ++ "-crew-" ++ c.Name) sessions) := by
  simp only [rigOf, listedAgents] at h
  cases hd : a.dirExists env (env.Join [env.Join [a.townRoot, name], "crew"])
  · simp [hd] at h
  · cases hl : env.ReadDir (env.Join [env.Join [a.townRoot, name], "crew"]) with
    | error e => simp [hd, hl] at h
    | ok es =>
      simp only [hd, hl, if_true] at h
      obtain ⟨e, _, rfl⟩ := List.mem_map.1 h
      rfl

theorem session_witness_eq (name : String) :
    "gt-" ++ name ++ "-" ++ "witness" = "gt-" ++ name ++ "-witness" := by
  rw [String.append_assoc ("gt-" ++ name)]
  rfl

theorem session_crew_eq (name member : String) :
    "gt-" ++ name ++ "-" ++ ("crew-" ++ member) = "gt-" ++ name ++ "-crew-" ++ member := by
  rw [String.append_assoc ("gt-" ++ name), ← String.append_assoc "-",
    ← String.append_assoc ("gt-" ++ name)]
  rfl

end FSAdapter

/-! ## Lemmas on the terminal model -/

theorem Tui.index_ok {α : Type} (xs : List α) (i : Int) (h0 : 0 ≤ i)
    (h1 : i < (xs.length : Int)) : ∃ x, Tui.index xs i = .ok x := by
  have hlt : i.toNat < xs.length := by omega
  refine ⟨xs[i.toNat], ?_⟩
  unfold Tui.index
  rw [if_neg (by omega), List.getElem?_eq_getElem hlt]

theorem Tui.updateDown_inv (m : Tui.Model) (h : 0 ≤ m.cursor ∧ 0 ≤ m.issueCur) :
    ∃ m2 c, Tui.updateDown m = .ok (m2, c) ∧ 0 ≤ m2.cursor ∧ 0 ≤ m2.issueCur := by
  unfold Tui.updateDown
  cases hb : m.board with
  | none => exact ⟨m, _, rfl, h⟩
  | some board =>
    by_cases hg : m.view = Tui.View.ViewBoard ∧ m.cursor < (board.Columns.length : Int)
    · obtain ⟨col, hcol⟩ := Tui.index_ok board.Columns m.cursor h.1 hg.2
      simp only [hg, and_self, if_true, hcol]
      by_cases hi : m.issueCur < (col.Issues.length : Int) - 1
      · simp only [hi, if_true]
        exact ⟨_, _, rfl, h.1, by show 0 ≤ m.issueCur + 1; omega⟩
      · simp only [hi, if_false]
        exact ⟨m, _, rfl, h⟩
    · simp only [hg, if_false]
      exact ⟨m, _, rfl, h⟩

theorem Tui.updateEnter_inv (m : Tui.Model) (h : 0 ≤ m.cursor ∧ 0 ≤ m.issueCur) :
    ∃ m2 c, Tui.updateEnter m = .ok (m2, c) ∧ 0 ≤ m2.cursor ∧ 0 ≤ m2.issueCur := by
  unfold Tui.updateEnter
  cases hb : m.board with
  | none => exact ⟨m, _, rfl, h⟩
  | some board =>
    by_cases hv : m.view = Tui.View.ViewBoard
    · by_cases hc : m.cursor < (board.Columns.length : Int)
      · obtain ⟨col, hcol⟩ := Tui.index_ok board.Columns m.cursor h.1 hc
        simp only [hv, hc, if_true, hcol]
        by_cases hi : m.issueCur < (col.Issues.length : Int)
        · obtain ⟨issue, hissue⟩ := Tui.index_ok col.Issues m.issueCur h.2 hi
          simp only [hi, if_true, hissue]
          exact ⟨_, _, rfl, h⟩
        · simp only [hi, if_false]
          exact ⟨m, _, rfl, h⟩
      · simp only [hv, hc, if_true, if_false]
        exact ⟨m, _, rfl, h⟩
    · simp only [hv, if_false]
      exact ⟨m, _, rfl, h⟩

theorem Tui.updateKey_inv (m : Tui.Model) (key : String) (h : 0 ≤ m.cursor ∧ 0 ≤ m.issueCur) :
    ∃ m2 c, Tui.updateKey m key = .ok (m2, c) ∧ 0 ≤ m2.cursor ∧ 0 ≤ m2.issueCur := by
  unfold Tui.updateKey
  split
  · exact ⟨m, _, rfl, h⟩
  split
  · exact ⟨_, _, rfl, h⟩
  split
  · exact ⟨_, _, rfl, h⟩
  split
  · split
    · exact ⟨_, _, rfl, h⟩
    · exact ⟨m, _, rfl, h⟩
  split
  · split
    · rename_i hg
      exact ⟨_, _, rfl, by show 0 ≤ m.cursor - 1; omega, le_refl _⟩
    · exact ⟨m, _, rfl, h⟩
  split
  · split
    · exact ⟨m, _, rfl, h⟩
    · split
      · exact ⟨_, _, rfl, by show 0 ≤ m.cursor + 1; omega, le_refl _⟩
      · exact ⟨m, _, rfl, h⟩
  split
  · split
    · rename_i hg
      exact ⟨_, _, rfl, h.1, by show 0 ≤ m.issueCur - 1; omega⟩
    · exact ⟨m, _, rfl, h⟩
  split
  · exact Tui.updateDown_inv m h
  split
  · exact Tui.updateEnter_inv m h
  · exact ⟨m, _, rfl, h⟩

theorem Tui.Update_inv (spinnerUpdate : Nat → Nat) (m : Tui.Model) (msg : Tui.Msg)
    (h : 0 ≤ m.cursor ∧ 0 ≤ m.issueCur) :
    ∃ m2 c, Tui.Update spinnerUpdate m msg = .ok (m2, c) ∧ 0 ≤ m2.cursor ∧ 0 ≤ m2.issueCur := by
  cases msg with
  | KeyMsg key => exact Tui.updateKey_inv m key h
  | WindowSizeMsg w ht => exact ⟨_, _, rfl, h⟩
  | TickMsg => exact ⟨_, _, rfl, h⟩
  | boardMsg board => exact ⟨_, _, rfl, h⟩
  | issueMsg issue => exact ⟨_, _, rfl, h⟩
  | errMsg err => exact ⟨_, _, rfl, h⟩
  | other => exact ⟨_, _, rfl, h⟩

theorem Tui.run_inv (spinnerUpdate : Nat → Nat) (msgs : List Tui.Msg) (m : Tui.Model)
    (h : 0 ≤ m.cursor ∧ 0 ≤ m.issueCur) :
    ∃ m2, Tui.run spinnerUpdate m msgs = .ok m2 ∧ 0 ≤ m2.cursor ∧ 0 ≤ m2.issueCur := by
  induction msgs generalizing m with
  | nil => exact ⟨m, rfl, h⟩
  | cons msg msgs ih =>
    obtain ⟨m2, c, hstep, hinv⟩ := Tui.Update_inv spinnerUpdate m msg h
    obtain ⟨m3, hrun, hinv3⟩ := ih m2 hinv
    refine ⟨m3, ?_, hinv3⟩
    simp only [Tui.run, hstep, hrun]

/-! ## The properties -/

/-- C1: whenever the town marker exists, `Status`, `Town` and `Agents` all
succeed on the same snapshot, `Agents` is the walk of the town (Mayor, Deacon,
then each rig's Witness, Refinery, Polecats and Crew), and the four counters of
`Status` are the counts of that walk: `ActiveRigs` is the number of rigs of the
town, `TotalAgents` the length of the sequence of agents, `ActiveAgents` the
number of its entries whose status is Active, `OpenConvoys` the number of
convoys of the town. -/
theorem status_counts_equal_town_walk (env : Env) (a : FSAdapter)
    (hmarker : a.dirExists env (env.Join [a.townRoot, "mayor"]) = true) :
    ∃ (st : TownStatus) (town : Town) (agents : List Agent),
      a.Status env = .ok st ∧ a.Town env = .ok town ∧ a.Agents env = .ok agents ∧
      agents = town.Mayor.toList ++ town.Deacon.toList ++
        town.Rigs.flatMap (fun r =>
          r.Witness.toList ++ r.Refinery.toList ++ r.Polecats ++ r.Crew) ∧
      st.ActiveRigs = town.Rigs.length ∧
      st.TotalAgents = agents.length ∧
      st.ActiveAgents =
        (agents.filter (fun ag => decide (ag.Status = AgentStatus.StatusActive))).length ∧
      st.OpenConvoys = town.Convoys.length := by
  have hex : a.townExists env = true := hmarker
  have htown : a.Town env = .ok (a.townOf env) := by
    rw [FSAdapter.Town_eq, if_pos hex]
  refine ⟨FSAdapter.statusOf a (a.townOf env), a.townOf env,
    FSAdapter.townAgents (a.townOf env), ?_, htown, ?_, rfl, rfl, rfl, rfl, rfl⟩
  · rw [FSAdapter.Status_eq, if_pos hex]
  · rw [FSAdapter.Agents_eq, htown]

/-- The marker of the sample town exists and its status counts one rig, two
agents, one of them active, and no convoy. -/
theorem status_counts_equal_town_walk_witness :
    (FSAdapter.mk "/town").dirExists sampleEnv (sampleEnv.Join ["/town", "mayor"]) = true ∧
    ∃ (st : TownStatus) (town : Town) (agents : List Agent),
      (FSAdapter.mk "/town").Status sampleEnv = .ok st ∧
      (FSAdapter.mk "/town").Town sampleEnv = .ok town ∧
      (FSAdapter.mk "/town").Agents sampleEnv = .ok agents ∧
      agents = town.Mayor.toList ++ town.Deacon.toList ++
        town.Rigs.flatMap (fun r =>
          r.Witness.toList ++ r.Refinery.toList ++ r.Polecats ++ r.Crew) ∧
      st.ActiveRigs = town.Rigs.length ∧
      st.TotalAgents = agents.length ∧
      st.ActiveAgents =
        (agents.filter (fun ag => decide (ag.Status = AgentStatus.StatusActive))).length ∧
      st.OpenConvoys = town.Convoys.length :=
  ⟨by decide, status_counts_equal_town_walk sampleEnv (FSAdapter.mk "/town") (by decide)⟩

/-- C2: `Status` always returns a status and no error, and the status is
healthy exactly when the mayor directory exists under the root: without the
marker `Healthy` is false and `Error` is not empty, with the marker `Healthy`
is true and `Error` is empty, whatever the sessions are. -/
theorem status_healthy_iff_marker (env : Env) (a : FSAdapter) :
    ∃ st : TownStatus, a.Status env = .ok st ∧
      (st.Healthy = true ↔ a.dirExists env (env.Join [a.townRoot, "mayor"]) = true) ∧
      (a.dirExists env (env.Join [a.townRoot, "mayor"]) = false →
        st.Healthy = false ∧ st.Error ≠ "") ∧
      (a.dirExists env (env.Join [a.townRoot, "mayor"]) = true →
        st.Healthy = true ∧ st.Error = "") := by
  have hdef : a.townExists env = a.dirExists env (env.Join [a.townRoot, "mayor"]) := rfl
  rw [FSAdapter.Status_eq, hdef]
  cases hex : a.dirExists env (env.Join [a.townRoot, "mayor"])
  · refine ⟨_, rfl, by simp, fun _ => ⟨rfl, ?_⟩, by simp⟩
    intro h
    have := congrArg String.length h
    simp only [String.length_append] at this
    have hlen : "Town not found at ".length = 18 := by decide
    have hnil : "".length = 0 := by decide
    omega
  · exact ⟨_, rfl, by simp [FSAdapter.statusOf], by simp, fun _ => ⟨rfl, rfl⟩⟩

/-- The sample town has its marker: its status is healthy with no error text. -/
theorem status_healthy_iff_marker_witness :
    ∃ st : TownStatus, (FSAdapter.mk "/town").Status sampleEnv = .ok st ∧
      st.Healthy = true ∧ st.Error = "" := by
  obtain ⟨st, hst, _, _, hpresent⟩ := status_healthy_iff_marker sampleEnv (FSAdapter.mk "/town")
  exact ⟨st, hst, hpresent (by decide)⟩

/-- C3: the mayor directory counts as absent exactly when `os.Stat` fails on
it or reports something that is not a directory; when it is absent `Town`
fails with "town not found at <root>" and returns no town; when it is present
`Town` returns a town whose `Root` is the configured root; so every failure of
`Town` is the not-found failure of an absent marker. -/
theorem town_not_found_iff_marker_absent (env : Env) (a : FSAdapter) :
    (a.dirExists env (env.Join [a.townRoot, "mayor"]) = false ↔
      ((∃ e, env.Stat (env.Join [a.townRoot, "mayor"]) = .error e) ∨
        env.Stat (env.Join [a.townRoot, "mayor"]) = .ok (FileInfo.mk false))) ∧
    (a.dirExists env (env.Join [a.townRoot, "mayor"]) = false →
      a.Town env = .error ("town not found at " ++ a.townRoot)) ∧
    (a.dirExists env (env.Join [a.townRoot, "mayor"]) = true →
      ∃ t : Town, a.Town env = .ok t ∧ t.Root = a.townRoot) ∧
    (∀ e, a.Town env = .error e →
      a.dirExists env (env.Join [a.townRoot, "mayor"]) = false ∧
        e = "town not found at " ++ a.townRoot) := by
  have hdef : a.townExists env = a.dirExists env (env.Join [a.townRoot, "mayor"]) := rfl
  refine ⟨?_, ?_, ?_, ?_⟩
  · unfold FSAdapter.dirExists
    cases hs : env.Stat (env.Join [a.townRoot, "mayor"]) with
    | error e => simp
    | ok info =>
      cases info with
      | mk d => cases d <;> simp
  · intro h
    rw [FSAdapter.Town_eq, hdef, h]; rfl
  · intro h
    rw [FSAdapter.Town_eq, hdef, h]
    exact ⟨_, rfl, rfl⟩
  · intro e he
    rw [FSAdapter.Town_eq, hdef] at he
    cases hex : a.dirExists env (env.Join [a.townRoot, "mayor"])
    · rw [hex] at he
      simp only [Bool.false_eq_true, if_false] at he
      injection he with he
      exact ⟨rfl, he.symm⟩
    · rw [hex] at he
      simp at he

/-- In the sample town the marker exists and `Town` returns a town rooted at
`/town`; under `/nowhere` the marker is absent and `Town` fails. -/
theorem town_not_found_iff_marker_absent_witness :
    (∃ t : Town, (FSAdapter.mk "/town").Town sampleEnv = .ok t ∧ t.Root = "/town") ∧
    (FSAdapter.mk "/nowhere").Town sampleEnv = .error "town not found at /nowhere" :=
  ⟨(town_not_found_iff_marker_absent sampleEnv (FSAdapter.mk "/town")).2.2.1 (by decide),
   (town_not_found_iff_marker_absent sampleEnv (FSAdapter.mk "/nowhere")).2.1 (by decide)⟩

/-- C4: when the root can be listed, `Rigs` succeeds and the names of its rigs
are those of the listing filtered, in listing order, to the entries that are
directories, are not named "mayor", do not start with "." and have a polecats,
witness or .beads directory; every returned rig has one of these three markers
and has `Path` equal to the root joined with its name; a listing holding only
"mayor" gives no rig. -/
theorem rigs_are_filtered_listing (env : Env) (a : FSAdapter) (entries : List DirEntry)
    (hlist : env.ReadDir a.townRoot = .ok entries) :
    ∃ rigs : List Rig, a.Rigs env = .ok rigs ∧
      rigs.map (fun r => r.Name) =
        (entries.filter (fun e =>
          e.IsDir && e.Name != "mayor" && !HasPrefix e.Name "." &&
            (a.dirExists env (env.Join [env.Join [a.townRoot, e.Name], "polecats"]) ||
             a.dirExists env (env.Join [env.Join [a.townRoot, e.Name], "witness"]) ||
             a.dirExists env (env.Join [env.Join [a.townRoot, e.Name], ".beads"])))).map
          (fun e => e.Name) ∧
      (∀ r ∈ rigs,
        r.Path = env.Join [a.townRoot, r.Name] ∧
        (a.dirExists env (env.Join [r.Path, "polecats"]) = true ∨
         a.dirExists env (env.Join [r.Path, "witness"]) = true ∨
         a.dirExists env (env.Join [r.Path, ".beads"]) = true)) ∧
      ((∀ e ∈ entries, e.Name = "mayor") → rigs = []) := by
  rw [FSAdapter.Rigs_eq, hlist]
  refine ⟨_, rfl, ?_, ?_, ?_⟩
  · rw [List.map_map]; rfl
  · intro r hr
    obtain ⟨e, he, rfl⟩ := List.mem_map.1 hr
    have hacc := (List.mem_filter.1 he).2
    refine ⟨rfl, ?_⟩
    simp only [FSAdapter.rigAccepted, Bool.and_eq_true, Bool.or_eq_true] at hacc
    simpa [FSAdapter.rigOf, or_assoc] using hacc.2
  · intro hall
    rw [List.map_eq_nil_iff, List.filter_eq_nil_iff]
    intro e he
    simp [FSAdapter.rigAccepted, hall e he]

/-- The root of the sample town can be listed; its only rig is `alpha`. -/
theorem rigs_are_filtered_listing_witness :
    sampleEnv.ReadDir "/town" = .ok [DirEntry.mk "alpha" true, DirEntry.mk "mayor" true] ∧
    ∃ rigs : List Rig, (FSAdapter.mk "/town").Rigs sampleEnv = .ok rigs ∧
      rigs.map (fun r => r.Name) = ["alpha"] := by
  refine ⟨rfl, ?_⟩
  obtain ⟨rigs, hrigs, hnames, _⟩ :=
    rigs_are_filtered_listing sampleEnv (FSAdapter.mk "/town")
      [DirEntry.mk "alpha" true, DirEntry.mk "mayor" true] rfl
  exact ⟨rigs, hrigs, hnames.trans (by decide)⟩

/-- C5: for every rig returned by `Rigs`, the Witness is present exactly when
`<rig>/witness` is a directory and the Refinery exactly when `<rig>/refinery`
is one; the names of the Polecats are those of the listing of `<rig>/polecats`
filtered, in order, to directories whose name does not start with ".", and
there is none when that directory is absent or cannot be listed; the same
holds for Crew and `<rig>/crew`; and every agent carries the role of its slot
and the name of the owning rig. -/
theorem rig_slots_follow_directories (env : Env) (a : FSAdapter) (rigs : List Rig)
    (hrigs : a.Rigs env = .ok rigs) :
    ∀ r ∈ rigs,
      (r.Witness.isSome = true ↔ a.dirExists env (env.Join [r.Path, "witness"]) = true) ∧
      (r.Refinery.isSome = true ↔ a.dirExists env (env.Join [r.Path, "refinery"]) = true) ∧
      r.Polecats.map (fun p => p.Name) =
        (if a.dirExists env (env.Join [r.Path, "polecats"]) then
          match env.ReadDir (env.Join [r.Path, "polecats"]) with
          | .ok es => (es.filter (fun e => e.IsDir && !HasPrefix e.Name ".")).map (fun e => e.Name)
          | .error _ => []
        else []) ∧
      r.Crew.map (fun c => c.Name) =
        (if a.dirExists env (env.Join [r.Path, "crew"]) then
          match env.ReadDir (env.Join [r.Path, "crew"]) with
          | .ok es => (es.filter (fun e => e.IsDir && !HasPrefix e.Name ".")).map (fun e => e.Name)
          | .error _ => []
        else []) ∧
      (∀ w, r.Witness = some w → w.Role = AgentRole.RoleWitness ∧ w.Rig = r.Name) ∧
      (∀ f, r.Refinery = some f → f.Role = AgentRole.RoleRefinery ∧ f.Rig = r.Name) ∧
      (∀ p ∈ r.Polecats, p.Role = AgentRole.RolePolecat ∧ p.Rig = r.Name) ∧
      (∀ c ∈ r.Crew, c.Role = AgentRole.RoleCrew ∧ c.Rig = r.Name) := by
  intro r hr
  have hform := FSAdapter.mem_Rigs env a rigs hrigs r hr
  generalize r.Name = name at hform
  subst hform
  simp only [FSAdapter.rigOf, FSAdapter.listedAgents]
  refine ⟨?_, ?_, ?_, ?_, ?_, ?_, ?_, ?_⟩
  · cases a.dirExists env (env.Join [env.Join [a.townRoot, name], "witness"]) <;> simp
  · cases a.dirExists env (env.Join [env.Join [a.townRoot, name], "refinery"]) <;> simp
  · cases a.dirExists env (env.Join [env.Join [a.townRoot, name], "polecats"])
    · simp
    · cases env.ReadDir (env.Join [env.Join [a.townRoot, name], "polecats"]) with
      | error e => simp
      | ok es => simp [List.map_map, Function.comp_def, FSAdapter.polecatOf]; rfl
  · cases a.dirExists env (env.Join [env.Join [a.townRoot, name], "crew"])
    · simp
    · cases env.ReadDir (env.Join [env.Join [a.townRoot, name], "crew"]) with
      | error e => simp
      | ok es => simp [List.map_map, Function.comp_def, FSAdapter.crewOf]; rfl
  · intro w hw
    cases hd : a.dirExists env (env.Join [env.Join [a.townRoot, name], "witness"])
    · simp [hd] at hw
    · simp [hd] at hw; subst hw; exact ⟨rfl, rfl⟩
  · intro f hf
    cases hd : a.dirExists env (env.Join [env.Join [a.townRoot, name], "refinery"])
    · simp [hd] at hf
    · simp [hd] at hf; subst hf; exact ⟨rfl, rfl⟩
  · intro p hp
    cases hd : a.dirExists env (env.Join [env.Join [a.townRoot, name], "polecats"])
    · simp [hd] at hp
    · cases hl : env.ReadDir (env.Join [env.Join [a.townRoot, name], "polecats"]) with
      | error e => simp [hd, hl] at hp
      | ok es =>
        simp only [hd, hl, if_true] at hp
        obtain ⟨e, _, rfl⟩ := List.mem_map.1 hp
        exact ⟨rfl, rfl⟩
  · intro c hc
    cases hd : a.dirExists env (env.Join [env.Join [a.townRoot, name], "crew"])
    · simp [hd] at hc
    · cases hl : env.ReadDir (env.Join [env.Join [a.townRoot, name], "crew"]) with
      | error e => simp [hd, hl] at hc
      | ok es =>
        simp only [hd, hl, if_true] at hc
        obtain ⟨e, _, rfl⟩ := List.mem_map.1 hc
        exact ⟨rfl, rfl⟩

/-- On the sample town `Rigs` returns `sampleRigs`, whose rig has no Witness,
as `/town/alpha/witness` is not a directory. -/
theorem rig_slots_follow_directories_witness :
    (FSAdapter.mk "/town").Rigs sampleEnv = .ok sampleRigs ∧
    ∀ r ∈ sampleRigs,
      (r.Witness.isSome = true ↔
        (FSAdapter.mk "/town").dirExists sampleEnv (sampleEnv.Join [r.Path, "witness"]) = true) :=
  ⟨rfl, fun r hr =>
    (rig_slots_follow_directories sampleEnv (FSAdapter.mk "/town") sampleRigs rfl r hr).1⟩

/-- C6: `agentStatus` is Active exactly for the members of the session set and
Offline otherwise; for every rig `r` returned by `Rigs`, with `S` the session
set, the Witness is Active iff "gt-r-witness" is in `S`, the Refinery iff
"gt-r-refinery" is, a polecat named `p` iff "gt-r-p" is, a crew member named
`c` iff "gt-r-crew-c" is, and each is Offline otherwise; the Mayor of a town
is Active iff "gt-mayor" is in `S`; and when the root lists `alpha` and
`mayor`, `alpha/polecats` lists the directory `p1` and `S` contains
"gt-alpha-p1", `Rigs` returns exactly one rig, named alpha, with exactly one
polecat, named p1 and Active. -/
theorem liveness_is_session_membership (env : Env) (a : FSAdapter) :
    (∀ name sessions,
      (a.agentStatus name sessions = AgentStatus.StatusActive ↔ name ∈ sessions) ∧
      (a.agentStatus name sessions = AgentStatus.StatusOffline ↔ name ∉ sessions)) ∧
    (∀ rigs, a.Rigs env = .ok rigs → ∀ r ∈ rigs,
      (∀ w, r.Witness = some w →
        (w.Status = AgentStatus.StatusActive ↔
          "gt-" ++ r.Name ++ "-witness" ∈ a.getTmuxSessions env) ∧
        (w.Status = AgentStatus.StatusOffline ↔
          "gt-" ++ r.Name ++ "-witness" ∉ a.getTmuxSessions env)) ∧
      (∀ f, r.Refinery = some f →
        (f.Status = AgentStatus.StatusActive ↔
          "gt-" ++ r.Name ++ "-refinery" ∈ a.getTmuxSessions env) ∧
        (f.Status = AgentStatus.StatusOffline ↔
          "gt-" ++ r.Name ++ "-refinery" ∉ a.getTmuxSessions env)) ∧
      (∀ p ∈ r.Polecats,
        (p.Status = AgentStatus.StatusActive ↔
          "gt-" ++ r.Name ++ "-" ++ p.Name ∈ a.getTmuxSessions env) ∧
        (p.Status = AgentStatus.StatusOffline ↔
          "gt-" ++ r.Name ++ "-" ++ p.Name ∉ a.getTmuxSessions env)) ∧
      (∀ c ∈ r.Crew,
        (c.Status = AgentStatus.StatusActive ↔
          "gt-" ++ r.Name ++ "-crew-" ++ c.Name ∈ a.getTmuxSessions env) ∧
        (c.Status = AgentStatus.StatusOffline ↔
          "gt-" ++ r.Name ++ "-crew-" ++ c.Name ∉ a.getTmuxSessions env))) ∧
    (∀ t : Town, a.Town env = .ok t → ∀ m, t.Mayor = some m →
      (m.Status = AgentStatus.StatusActive ↔ "gt-mayor" ∈ a.getTmuxSessions env) ∧
      (m.Status = AgentStatus.StatusOffline ↔ "gt-mayor" ∉ a.getTmuxSessions env)) ∧
    (env.ReadDir a.townRoot = .ok [DirEntry.mk "alpha" true, DirEntry.mk "mayor" true] →
      a.dirExists env (env.Join [env.Join [a.townRoot, "alpha"], "polecats"]) = true →
      env.ReadDir (env.Join [env.Join [a.townRoot, "alpha"], "polecats"]) =
        .ok [DirEntry.mk "p1" true] →
      "gt-alpha-p1" ∈ a.getTmuxSessions env →
      ∃ (r : Rig) (p : Agent), a.Rigs env = .ok [r] ∧ r.Name = "alpha" ∧
        r.Polecats = [p] ∧ p.Name = "p1" ∧ p.Role = AgentRole.RolePolecat ∧
        p.Status = AgentStatus.StatusActive) := by
  refine ⟨fun name sessions =>
    ⟨FSAdapter.agentStatus_active_iff a name sessions,
     FSAdapter.agentStatus_offline_iff a name sessions⟩, ?_, ?_, ?_⟩
  · intro rigs hrigs r hr
    have hform := FSAdapter.mem_Rigs env a rigs hrigs r hr
    generalize r.Name = name at hform
    subst hform
    simp only [FSAdapter.rigOf, FSAdapter.listedAgents]
    refine ⟨?_, ?_, ?_, ?_⟩
    · intro w hw
      cases hd : a.dirExists env (env.Join [env.Join [a.townRoot, name], "witness"])
      · simp [hd] at hw
      · simp [hd] at hw; subst hw
        exact ⟨FSAdapter.agentStatus_active_iff a _ _, FSAdapter.agentStatus_offline_iff a _ _⟩
    · intro f hf
      cases hd : a.dirExists env (env.Join [env.Join [a.townRoot, name], "refinery"])
      · simp [hd] at hf
      · simp [hd] at hf; subst hf
        exact ⟨FSAdapter.agentStatus_active_iff a _ _, FSAdapter.agentStatus_offline_iff a _ _⟩
    · intro p hp
      cases hd : a.dirExists env (env.Join [env.Join [a.townRoot, name], "polecats"])
      · simp [hd] at hp
      · cases hl : env.ReadDir (env.Join [env.Join [a.townRoot, name], "polecats"]) with
        | error e => simp [hd, hl] at hp
        | ok es =>
          simp only [hd, hl, if_true] at hp
          obtain ⟨e, _, rfl⟩ := List.mem_map.1 hp
          exact ⟨FSAdapter.agentStatus_active_iff a _ _,
            FSAdapter.agentStatus_offline_iff a _ _⟩
    · intro c hc
      cases hd : a.dirExists env (env.Join [env.Join [a.townRoot, name], "crew"])
      · simp [hd] at hc
      · cases hl : env.ReadDir (env.Join [env.Join [a.townRoot, name], "crew"]) with
        | error e => simp [hd, hl] at hc
        | ok es =>
          simp only [hd, hl, if_true] at hc
          obtain ⟨e, _, rfl⟩ := List.mem_map.1 hc
          exact ⟨FSAdapter.agentStatus_active_iff a _ _,
            FSAdapter.agentStatus_offline_iff a _ _⟩
  · intro t ht m hm
    rw [FSAdapter.Town_eq] at ht
    cases hex : a.townExists env
    · simp [hex] at ht
    · rw [if_pos hex] at ht
      injection ht with ht
      subst ht
      have hdir : a.dirExists env (env.Join [a.townRoot, "mayor"]) = true := hex
      simp only [FSAdapter.townOf, hdir, if_true, Option.some.injEq] at hm
      subst hm
      exact ⟨FSAdapter.agentStatus_active_iff a _ _, FSAdapter.agentStatus_offline_iff a _ _⟩
  · intro hroot hdir hlist hsess
    have hacc : FSAdapter.rigAccepted env a (DirEntry.mk "alpha" true) = true := by
      have h1 : HasPrefix "alpha" "." = false := by decide
      have h2 : ("alpha" != "mayor") = true := by decide
      simp [FSAdapter.rigAccepted, hdir, h1, h2]
    have hrej : FSAdapter.rigAccepted env a (DirEntry.mk "mayor" true) = false := by
      simp [FSAdapter.rigAccepted]
    refine ⟨FSAdapter.rigOf env a (a.getTmuxSessions env) "alpha",
      FSAdapter.polecatOf a "alpha" (a.getTmuxSessions env) (DirEntry.mk "p1" true),
      ?_, ?_, ?_, rfl, rfl, ?_⟩
    · rw [FSAdapter.Rigs_eq, hroot]
      simp only [List.filter_cons, hacc, hrej, if_true, List.filter_nil, List.map_cons,
        List.map_nil, Bool.false_eq_true, if_false]
    · rfl
    · simp only [FSAdapter.rigOf, FSAdapter.listedAgents, hdir, hlist, if_true]
      have hvis : FSAdapter.visibleDir (DirEntry.mk "p1" true) = true := by decide
      simp only [List.filter_cons, hvis, if_true, List.filter_nil, List.map_cons, List.map_nil]
    · exact (FSAdapter.agentStatus_active_iff a _ _).2 hsess

/-- The sample town meets the scenario: `Rigs` returns the single rig alpha
with the single polecat p1, Active. -/
theorem liveness_is_session_membership_witness :
    sampleEnv.ReadDir "/town" = .ok [DirEntry.mk "alpha" true, DirEntry.mk "mayor" true] ∧
    "gt-alpha-p1" ∈ (FSAdapter.mk "/town").getTmuxSessions sampleEnv ∧
    ∃ (r : Rig) (p : Agent), (FSAdapter.mk "/town").Rigs sampleEnv = .ok [r] ∧
      r.Name = "alpha" ∧ r.Polecats = [p] ∧ p.Name = "p1" ∧
      p.Role = AgentRole.RolePolecat ∧ p.Status = AgentStatus.StatusActive :=
  ⟨rfl, by decide,
   (liveness_is_session_membership sampleEnv (FSAdapter.mk "/town")).2.2.2
     rfl (by decide) rfl (by decide)⟩

/-- C7, as stated, fails: with `tmux` not runnable and `mayor/daemon.pid`
present, `Agents` reports a Deacon whose status is Active, not Offline. -/
theorem deacon_active_when_session_listing_fails :
    pidEnv.tmuxListSessions = .error "executable file not found" ∧
    ∃ agents : List Agent, (FSAdapter.mk "/town").Agents pidEnv = .ok agents ∧
      Agent.mk AgentRole.RoleDeacon "deacon" "" AgentStatus.StatusActive ∈ agents ∧
      ¬ (∀ ag ∈ agents, ag.Status = AgentStatus.StatusOffline) := by
  refine ⟨rfl, [Agent.mk AgentRole.RoleMayor "mayor" "" AgentStatus.StatusOffline,
    Agent.mk AgentRole.RoleDeacon "deacon" "" AgentStatus.StatusActive,
    Agent.mk AgentRole.RoleWitness "witness" "alpha" AgentStatus.StatusOffline,
    Agent.mk AgentRole.RoleRefinery "refinery" "alpha" AgentStatus.StatusOffline,
    Agent.mk AgentRole.RolePolecat "p1" "alpha" AgentStatus.StatusOffline,
    Agent.mk AgentRole.RoleCrew "c1" "alpha" AgentStatus.StatusOffline], rfl, by decide, by decide⟩

/-- C7, amended: when the session-listing invocation fails the session set is
empty; `Rigs` still fails only when the root cannot be listed, `Town` and
`Agents` only when the marker is absent, and `Status` not at all; every
Witness, Refinery, Polecat and Crew member returned by `Rigs` is Offline; in a
town returned by `Town` the Mayor is Offline and the Deacon, when present, is
Active; and every entry of `Agents` other than the Deacon is Offline, the
Deacon being Active. -/
theorem all_but_deacon_offline_when_session_listing_fails (env : Env) (a : FSAdapter)
    (hfail : ∃ e, env.tmuxListSessions = .error e) :
    a.getTmuxSessions env = [] ∧
    (∀ e, a.Rigs env = .error e → env.ReadDir a.townRoot = .error e) ∧
    (∀ e, a.Town env = .error e →
      a.dirExists env (env.Join [a.townRoot, "mayor"]) = false) ∧
    (∀ e, a.Agents env = .error e →
      a.dirExists env (env.Join [a.townRoot, "mayor"]) = false) ∧
    (∃ st, a.Status env = .ok st) ∧
    (∀ rigs, a.Rigs env = .ok rigs → ∀ r ∈ rigs,
      ∀ ag ∈ r.Witness.toList ++ r.Refinery.toList ++ r.Polecats ++ r.Crew,
        ag.Status = AgentStatus.StatusOffline) ∧
    (∀ t : Town, a.Town env = .ok t →
      (∀ m, t.Mayor = some m → m.Status = AgentStatus.StatusOffline) ∧
      (∀ d, t.Deacon = some d → d.Status = AgentStatus.StatusActive) ∧
      (∀ r ∈ t.Rigs, ∀ ag ∈ r.Witness.toList ++ r.Refinery.toList ++ r.Polecats ++ r.Crew,
        ag.Status = AgentStatus.StatusOffline)) ∧
    (∀ agents, a.Agents env = .ok agents → ∀ ag ∈ agents,
      (ag.Role ≠ AgentRole.RoleDeacon → ag.Status = AgentStatus.StatusOffline) ∧
      (ag.Role = AgentRole.RoleDeacon → ag.Status = AgentStatus.StatusActive)) := by
  obtain ⟨e0, he0⟩ := hfail
  have hs : a.getTmuxSessions env = [] := FSAdapter.getTmuxSessions_of_error env a e0 he0
  have hdef : a.townExists env = a.dirExists env (env.Join [a.townRoot, "mayor"]) := rfl
  have htownErr : ∀ e, a.Town env = .error e →
      a.dirExists env (env.Join [a.townRoot, "mayor"]) = false := by
    intro e he
    rw [FSAdapter.Town_eq, hdef] at he
    cases hex : a.dirExists env (env.Join [a.townRoot, "mayor"])
    · rfl
    · simp [hex] at he
  have htownRigs : ∀ r ∈ (a.townOf env).Rigs, ∀ ag ∈ FSAdapter.rigAgents r,
      ag.Role ≠ AgentRole.RoleDeacon ∧ ag.Status = AgentStatus.StatusOffline := by
    intro r hr
    cases hrigs : a.Rigs env with
    | error e => simp [FSAdapter.townOf, hrigs] at hr
    | ok rigs =>
      simp only [FSAdapter.townOf, hrigs] at hr
      exact FSAdapter.Rigs_offline_of_no_sessions env a hs rigs hrigs r hr
  have htownOk : ∀ t : Town, a.Town env = .ok t → t = a.townOf env := by
    intro t ht
    rw [FSAdapter.Town_eq] at ht
    cases hex : a.townExists env
    · simp [hex] at ht
    · rw [if_pos hex] at ht
      injection ht with ht
      exact ht.symm
  have hmayor : ∀ m, (a.townOf env).Mayor = some m →
      m.Role ≠ AgentRole.RoleDeacon ∧ m.Status = AgentStatus.StatusOffline := by
    intro m hm
    cases hd : a.dirExists env (env.Join [a.townRoot, "mayor"])
    · simp [FSAdapter.townOf, hd] at hm
    · simp only [FSAdapter.townOf, hd, if_true, Option.some.injEq, hs] at hm
      subst hm
      exact ⟨by simp, rfl⟩
  have hdeacon : ∀ d, (a.townOf env).Deacon = some d →
      d.Role = AgentRole.RoleDeacon ∧ d.Status = AgentStatus.StatusActive := by
    intro d hd'
    cases hd : a.daemonRunning env
    · simp [FSAdapter.townOf, hd] at hd'
    · simp only [FSAdapter.townOf, hd, if_true, Option.some.injEq] at hd'
      subst hd'
      exact ⟨rfl, rfl⟩
  refine ⟨hs, ?_, htownErr, ?_, ?_, ?_, ?_, ?_⟩
  · intro e he
    rw [FSAdapter.Rigs_eq] at he
    cases hl : env.ReadDir a.townRoot with
    | error err => rw [hl] at he; injection he with he; rw [he]
    | ok entries => rw [hl] at he; simp at he
  · intro e he
    rw [FSAdapter.Agents_eq] at he
    cases ht : a.Town env with
    | error err => exact htownErr err ht
    | ok t => rw [ht] at he; simp at he
  · rw [FSAdapter.Status_eq]
    cases a.townExists env
    · exact ⟨_, rfl⟩
    · exact ⟨_, rfl⟩
  · intro rigs hrigs r hr ag hag
    exact (FSAdapter.Rigs_offline_of_no_sessions env a hs rigs hrigs r hr ag hag).2
  · intro t ht
    rw [htownOk t ht]
    exact ⟨fun m hm => (hmayor m hm).2, fun d hd => (hdeacon d hd).2,
      fun r hr ag hag => (htownRigs r hr ag hag).2⟩
  · intro agents hag ag hmem
    rw [FSAdapter.Agents_eq] at hag
    cases ht : a.Town env with
    | error err => rw [ht] at hag; simp at hag
    | ok t =>
      rw [ht] at hag
      injection hag with hag
      subst hag
      rw [htownOk t ht] at hmem
      simp only [FSAdapter.townAgents, List.mem_append, Option.mem_toList, Option.mem_def,
        List.mem_flatMap] at hmem
      rcases hmem with (hm | hd) | ⟨r, hr, hra⟩
      · exact ⟨fun _ => (hmayor ag hm).2, fun h => absurd h (hmayor ag hm).1⟩
      · exact ⟨fun h => absurd (hdeacon ag hd).1 h, fun _ => (hdeacon ag hd).2⟩
      · exact ⟨fun _ => (htownRigs r hr ag hra).2, fun h => absurd h (htownRigs r hr ag hra).1⟩

/-- In the town with a PID file `tmux` cannot be run: the session set is
empty and `Status` still returns a status. -/
theorem all_but_deacon_offline_when_session_listing_fails_witness :
    (∃ e, pidEnv.tmuxListSessions = .error e) ∧
    (FSAdapter.mk "/town").getTmuxSessions pidEnv = [] ∧
    (∃ st, (FSAdapter.mk "/town").Status pidEnv = .ok st) :=
  ⟨⟨_, rfl⟩,
   (all_but_deacon_offline_when_session_listing_fails pidEnv (FSAdapter.mk "/town") ⟨_, rfl⟩).1,
   (all_but_deacon_offline_when_session_listing_fails pidEnv (FSAdapter.mk "/town")
     ⟨_, rfl⟩).2.2.2.2.1⟩

/-- C8: in every town returned by `Town`, the Deacon is present exactly when
`os.Stat` succeeds on `mayor/daemon.pid` under the root or, that failing, the
`gt daemon status` invocation succeeds; and a Deacon that is present is
Active, named "deacon", of role Deacon and with an empty owning rig, whatever
the session set is. -/
theorem deacon_present_iff_daemon_running (env : Env) (a : FSAdapter) (t : Town)
    (ht : a.Town env = .ok t) :
    (t.Deacon.isSome = true ↔
      ((∃ info, env.Stat (env.Join [a.townRoot, "mayor", "daemon.pid"]) = .ok info) ∨
       ((∃ e, env.Stat (env.Join [a.townRoot, "mayor", "daemon.pid"]) = .error e) ∧
         env.gtDaemonStatus a.townRoot = .ok ()))) ∧
    (∀ d, t.Deacon = some d →
      d.Status = AgentStatus.StatusActive ∧ d.Name = "deacon" ∧ d.Rig = "" ∧
        d.Role = AgentRole.RoleDeacon) := by
  rw [FSAdapter.Town_ok_eq env a t ht]
  simp only [FSAdapter.townOf]
  constructor
  · rw [← FSAdapter.daemonRunning_iff]
    cases a.daemonRunning env <;> simp
  · intro d hd
    cases hrun : a.daemonRunning env
    · simp [hrun] at hd
    · simp only [hrun, if_true, Option.some.injEq] at hd
      subst hd
      exact ⟨rfl, rfl, rfl, rfl⟩

/-- The town with a PID file is returned with an Active Deacon although no
session exists. -/
theorem deacon_present_iff_daemon_running_witness :
    ∃ t : Town, (FSAdapter.mk "/town").Town pidEnv = .ok t ∧
      t.Deacon.isSome = true ∧
      ∀ d, t.Deacon = some d →
        d.Status = AgentStatus.StatusActive ∧ d.Name = "deacon" ∧ d.Rig = "" ∧
          d.Role = AgentRole.RoleDeacon :=
  ⟨(FSAdapter.mk "/town").townOf pidEnv, rfl,
   (deacon_present_iff_daemon_running pidEnv (FSAdapter.mk "/town") _ rfl).1.2
     (Or.inl ⟨FileInfo.mk false, rfl⟩),
   (deacon_present_iff_daemon_running pidEnv (FSAdapter.mk "/town") _ rfl).2⟩

/-- C9: when the town marker is present, `Town` succeeds; if `mayor/town.json`
can be read and decodes as a town configuration, the `Name` of the town is the
decoded name; if the file cannot be read, or its content does not decode, the
`Name` is the empty string. -/
theorem town_name_from_config (env : Env) (a : FSAdapter)
    (hmarker : a.dirExists env (env.Join [a.townRoot, "mayor"]) = true) :
    ∃ t : Town, a.Town env = .ok t ∧
      (∀ data config, env.ReadFile (env.Join [a.townRoot, "mayor", "town.json"]) = .ok data →
        env.unmarshalTownConfig data = .ok config → t.Name = config.Name) ∧
      ((∃ e, env.ReadFile (env.Join [a.townRoot, "mayor", "town.json"]) = .error e) →
        t.Name = "") ∧
      (∀ data, env.ReadFile (env.Join [a.townRoot, "mayor", "town.json"]) = .ok data →
        (∃ e, env.unmarshalTownConfig data = .error e) → t.Name = "") := by
  refine ⟨a.townOf env, FSAdapter.Town_of_marker env a hmarker, ?_, ?_, ?_⟩
  · intro data config hread hdec
    simp [FSAdapter.townOf, FSAdapter.readTownConfig, hread, hdec]
  · rintro ⟨e, hread⟩
    simp [FSAdapter.townOf, FSAdapter.readTownConfig, hread]
  · rintro data hread ⟨e, hdec⟩
    simp [FSAdapter.townOf, FSAdapter.readTownConfig, hread, hdec]

/-- The town whose `mayor/town.json` names it `acme` is returned with the
name `acme`; the sample town, which has no configuration file, is returned
with an empty name. -/
theorem town_name_from_config_witness :
    (∃ t : Town, (FSAdapter.mk "/town").Town acmeEnv = .ok t ∧ t.Name = "acme") ∧
    (∃ t : Town, (FSAdapter.mk "/town").Town sampleEnv = .ok t ∧ t.Name = "") := by
  constructor
  · obtain ⟨t, ht, hname, _, _⟩ :=
      town_name_from_config acmeEnv (FSAdapter.mk "/town") (by decide)
    exact ⟨t, ht, hname "\x7b\"name\":\"acme\"\x7d" (TownConfig.mk "acme") rfl rfl⟩
  · obtain ⟨t, ht, _, hnone, _⟩ :=
      town_name_from_config sampleEnv (FSAdapter.mk "/town") (by decide)
    exact ⟨t, ht, hnone ⟨_, rfl⟩⟩

/-- C10, as stated, fails: when the root cannot be listed but the marker
exists, `Town` returns a town (with no rigs) and no failure. -/
theorem town_succeeds_on_unlistable_root :
    lockedEnv.ReadDir "/town" = .error "open /town: permission denied" ∧
    (FSAdapter.mk "/town").Rigs lockedEnv = .error "open /town: permission denied" ∧
    (FSAdapter.mk "/town").Town lockedEnv =
      .ok (Town.mk "/town" ""
        (some (Agent.mk AgentRole.RoleMayor "mayor" "" AgentStatus.StatusOffline))
        none [] []) :=
  ⟨rfl, rfl, rfl⟩

/-- C10, amended: whenever listing the root directory fails, `Rigs` fails with
that cause; `Town` does not surface it: with the marker present it returns a
town whose `Rigs` is empty, and with the marker absent it fails with the
not-found failure. -/
theorem unlistable_root_fails_rigs_not_town (env : Env) (a : FSAdapter) (err : String)
    (hlist : env.ReadDir a.townRoot = .error err) :
    a.Rigs env = .error err ∧
    (a.dirExists env (env.Join [a.townRoot, "mayor"]) = true →
      ∃ t : Town, a.Town env = .ok t ∧ t.Root = a.townRoot ∧ t.Rigs = []) ∧
    (a.dirExists env (env.Join [a.townRoot, "mayor"]) = false →
      a.Town env = .error ("town not found at " ++ a.townRoot)) := by
  have hrigs : a.Rigs env = .error err := by rw [FSAdapter.Rigs_eq, hlist]
  refine ⟨hrigs, ?_, ?_⟩
  · intro hmarker
    refine ⟨a.townOf env, FSAdapter.Town_of_marker env a hmarker, rfl, ?_⟩
    simp [FSAdapter.townOf, hrigs]
  · intro habsent
    have hex : a.townExists env = false := habsent
    rw [FSAdapter.Town_eq, hex]; rfl

/-- The unlistable root: `Rigs` fails with the listing error while `Town`
returns a town without rigs. -/
theorem unlistable_root_fails_rigs_not_town_witness :
    lockedEnv.ReadDir "/town" = .error "open /town: permission denied" ∧
    (FSAdapter.mk "/town").Rigs lockedEnv = .error "open /town: permission denied" ∧
    ∃ t : Town, (FSAdapter.mk "/town").Town lockedEnv = .ok t ∧ t.Root = "/town" ∧
      t.Rigs = [] :=
  ⟨rfl,
   (unlistable_root_fails_rigs_not_town lockedEnv (FSAdapter.mk "/town")
     "open /town: permission denied" rfl).1,
   (unlistable_root_fails_rigs_not_town lockedEnv (FSAdapter.mk "/town")
     "open /town: permission denied" rfl).2.1 (by decide)⟩

/-- C11: `Rig(name)` projects `Rigs` by exact name.  When `Rigs` fails, `Rig`
fails with the same cause.  When `Rigs` succeeds, `Rig(name)` succeeds exactly
when some returned rig is named `name`; the rig it returns is named `name` and
is the first such rig of the sequence; and when no rig has that name it fails
with "rig not found: <name>".  For the name "mayor" and for every name
starting with "." it always fails. -/
theorem rig_is_first_match_by_name (env : Env) (a : FSAdapter) (name : String) :
    (∀ err, a.Rigs env = .error err → a.Rig env name = .error err) ∧
    (∀ rigs, a.Rigs env = .ok rigs →
      ((∃ r, a.Rig env name = .ok r) ↔ ∃ r ∈ rigs, r.Name = name) ∧
      (∀ r, a.Rig env name = .ok r →
        r.Name = name ∧
        ∃ before after, rigs = before ++ r :: after ∧ ∀ x ∈ before, x.Name ≠ name) ∧
      ((∀ r ∈ rigs, r.Name ≠ name) → a.Rig env name = .error ("rig not found: " ++ name))) ∧
    ((name = "mayor" ∨ HasPrefix name "." = true) → ∃ e, a.Rig env name = .error e) := by
  have hfound : ∀ rigs, a.Rigs env = .ok rigs → ∀ r, a.Rig env name = .ok r →
      rigs.find? (fun rig => rig.Name == name) = some r := by
    intro rigs hrigs r hr
    rw [FSAdapter.Rig_eq_of_ok env a name rigs hrigs] at hr
    cases hf : rigs.find? (fun rig => rig.Name == name) with
    | none => rw [hf] at hr; simp at hr
    | some x =>
      rw [hf] at hr
      injection hr with hr
      rw [hr]
  have hnone : ∀ rigs, a.Rigs env = .ok rigs → (∀ r ∈ rigs, r.Name ≠ name) →
      a.Rig env name = .error ("rig not found: " ++ name) := by
    intro rigs hrigs hall
    rw [FSAdapter.Rig_eq_of_ok env a name rigs hrigs]
    have hf : rigs.find? (fun rig => rig.Name == name) = none := by
      rw [List.find?_eq_none]
      intro x hx
      simpa using hall x hx
    rw [hf]
  refine ⟨?_, ?_, ?_⟩
  · intro err herr
    unfold FSAdapter.Rig
    rw [herr]
  · intro rigs hrigs
    refine ⟨⟨?_, ?_⟩, ?_, hnone rigs hrigs⟩
    · rintro ⟨r, hr⟩
      have hf := hfound rigs hrigs r hr
      exact ⟨r, List.mem_of_find?_eq_some hf, by simpa using List.find?_some hf⟩
    · rintro ⟨r, hr, hname⟩
      rw [FSAdapter.Rig_eq_of_ok env a name rigs hrigs]
      cases hf : rigs.find? (fun rig => rig.Name == name) with
      | none =>
        rw [List.find?_eq_none] at hf
        exact absurd (by simpa using hname) (hf r hr)
      | some x => exact ⟨x, rfl⟩
    · intro r hr
      have hf := hfound rigs hrigs r hr
      rw [List.find?_eq_some] at hf
      obtain ⟨hname, before, after, hsplit, hbefore⟩ := hf
      refine ⟨by simpa using hname, before, after, hsplit, ?_⟩
      intro x hx
      simpa using hbefore x hx
  · intro hname
    cases hrigs : a.Rigs env with
    | error err =>
      exact ⟨err, by unfold FSAdapter.Rig; rw [hrigs]⟩
    | ok rigs =>
      refine ⟨_, hnone rigs hrigs ?_⟩
      intro r hr heq
      have hok := FSAdapter.Rigs_names env a rigs hrigs r hr
      rcases hname with h | h
      · exact hok.1 (heq.trans h)
      · rw [heq, h] at hok
        exact Bool.noConfusion hok.2

/-- In the sample town `Rig("alpha")` returns the rig alpha, while
`Rig("mayor")` and `Rig(".git")` fail. -/
theorem rig_is_first_match_by_name_witness :
    (∃ r : Rig, (FSAdapter.mk "/town").Rig sampleEnv "alpha" = .ok r ∧ r.Name = "alpha") ∧
    (∃ e, (FSAdapter.mk "/town").Rig sampleEnv "mayor" = .error e) ∧
    (∃ e, (FSAdapter.mk "/town").Rig sampleEnv ".git" = .error e) := by
  refine ⟨?_, ?_, ?_⟩
  · obtain ⟨r, hr⟩ :=
      ((rig_is_first_match_by_name sampleEnv (FSAdapter.mk "/town") "alpha").2.1
        sampleRigs rfl).1.2 ⟨_, List.mem_singleton.2 rfl, rfl⟩
    exact ⟨r, hr,
      (((rig_is_first_match_by_name sampleEnv (FSAdapter.mk "/town") "alpha").2.1
        sampleRigs rfl).2.1 r hr).1⟩
  · exact (rig_is_first_match_by_name sampleEnv (FSAdapter.mk "/town") "mayor").2.2
      (Or.inl rfl)
  · exact (rig_is_first_match_by_name sampleEnv (FSAdapter.mk "/town") ".git").2.2
      (Or.inr (by decide))

/-- C12: `Agents` fails exactly when `Town` fails, with the same cause; when
`Town` returns a town, `Agents` returns the Mayor if present, the Deacon if
present, then for each rig of the town in order its Witness if present, its
Refinery if present, its Polecats and its Crew, and nothing else.  So when the
town marker is present the result starts with the Mayor, and when no entry of
the root listing is a rig directory no entry of the result has an owning rig. -/
theorem agents_is_projection_of_town (env : Env) (a : FSAdapter) :
    (∀ e, a.Agents env = .error e ↔ a.Town env = .error e) ∧
    (∀ t : Town, a.Town env = .ok t →
      a.Agents env = .ok (t.Mayor.toList ++ t.Deacon.toList ++
        t.Rigs.flatMap (fun r =>
          r.Witness.toList ++ r.Refinery.toList ++ r.Polecats ++ r.Crew))) ∧
    (a.dirExists env (env.Join [a.townRoot, "mayor"]) = true →
      ∃ (t : Town) (m : Agent) (others : List Agent),
        a.Town env = .ok t ∧ t.Mayor = some m ∧ m.Role = AgentRole.RoleMayor ∧
        a.Agents env = .ok (m :: others)) ∧
    (∀ entries, env.ReadDir a.townRoot = .ok entries →
      (∀ e ∈ entries,
        (e.IsDir && e.Name != "mayor" && !HasPrefix e.Name "." &&
          (a.dirExists env (env.Join [env.Join [a.townRoot, e.Name], "polecats"]) ||
           a.dirExists env (env.Join [env.Join [a.townRoot, e.Name], "witness"]) ||
           a.dirExists env (env.Join [env.Join [a.townRoot, e.Name], ".beads"]))) = false) →
      ∀ agents, a.Agents env = .ok agents → ∀ ag ∈ agents, ag.Rig = "") := by
  have hproj : ∀ t : Town, a.Town env = .ok t →
      a.Agents env = .ok (t.Mayor.toList ++ t.Deacon.toList ++
        t.Rigs.flatMap (fun r =>
          r.Witness.toList ++ r.Refinery.toList ++ r.Polecats ++ r.Crew)) := by
    intro t ht
    rw [FSAdapter.Agents_eq, ht]
    rfl
  refine ⟨?_, hproj, ?_, ?_⟩
  · intro e
    rw [FSAdapter.Agents_eq]
    cases ht : a.Town env with
    | error err => simp
    | ok t => simp
  · intro hmarker
    have ht := FSAdapter.Town_of_marker env a hmarker
    have hm : (a.townOf env).Mayor = some (Agent.mk AgentRole.RoleMayor "mayor" ""
        (a.agentStatus "gt-mayor" (a.getTmuxSessions env))) := by
      simp [FSAdapter.townOf, hmarker]
    refine ⟨a.townOf env, _, (a.townOf env).Deacon.toList ++
      (a.townOf env).Rigs.flatMap (fun r =>
        r.Witness.toList ++ r.Refinery.toList ++ r.Polecats ++ r.Crew), ht, hm, rfl, ?_⟩
    rw [hproj _ ht, hm]
    rfl
  · intro entries hlist hnone agents hag ag hmem
    have hrigs : a.Rigs env = .ok [] := by
      rw [FSAdapter.Rigs_eq, hlist]
      have hf : entries.filter (FSAdapter.rigAccepted env a) = [] := by
        rw [List.filter_eq_nil_iff]
        intro e he
        have := hnone e he
        simp only [FSAdapter.rigAccepted]
        rw [this]
        simp
      simp only [hf, List.map_nil]
    rw [FSAdapter.Agents_eq] at hag
    cases ht : a.Town env with
    | error err => rw [ht] at hag; simp at hag
    | ok t =>
      rw [ht] at hag
      injection hag with hag
      subst hag
      rw [FSAdapter.Town_ok_eq env a t ht] at hmem
      simp only [FSAdapter.townAgents, FSAdapter.townOf, hrigs, List.flatMap_nil,
        List.append_nil, List.mem_append, Option.mem_toList, Option.mem_def] at hmem
      rcases hmem with hm | hd
      · split at hm
        · injection hm with hm; rw [← hm]
        · simp at hm
      · split at hd
        · injection hd with hd; rw [← hd]
        · simp at hd

/-- The town holding only `mayor/` is walked to the Offline Mayor alone, and
no agent of the result has an owning rig. -/
theorem agents_is_projection_of_town_witness :
    acmeEnv.ReadDir "/town" = .ok [DirEntry.mk "mayor" true] ∧
    (∃ (t : Town) (m : Agent) (others : List Agent),
      (FSAdapter.mk "/town").Town acmeEnv = .ok t ∧ t.Mayor = some m ∧
      m.Role = AgentRole.RoleMayor ∧ (FSAdapter.mk "/town").Agents acmeEnv = .ok (m :: others)) ∧
    (∀ ag ∈ [Agent.mk AgentRole.RoleMayor "mayor" "" AgentStatus.StatusOffline], ag.Rig = "") :=
  ⟨rfl,
   (agents_is_projection_of_town acmeEnv (FSAdapter.mk "/town")).2.2.1 (by decide),
   (agents_is_projection_of_town acmeEnv (FSAdapter.mk "/town")).2.2.2
     [DirEntry.mk "mayor" true] rfl (by decide)
     [Agent.mk AgentRole.RoleMayor "mayor" "" AgentStatus.StatusOffline] rfl⟩

/-- C13: `Convoys` never returns an error; when the listing command fails the
result is empty; when its output decodes as a sequence of convoys the result
is that sequence; when it does not but decodes as a single convoy the result
is the one-element sequence holding it; when both decodings fail the result is
empty. -/
theorem convoys_best_effort (env : Env) (a : FSAdapter) :
    (∃ convoys, a.Convoys env = .ok convoys) ∧
    ((∃ e, env.gtConvoyList a.townRoot = .error e) → a.Convoys env = .ok []) ∧
    (∀ output, env.gtConvoyList a.townRoot = .ok output →
      (∀ convoys, env.unmarshalConvoys output = .ok convoys →
        a.Convoys env = .ok convoys) ∧
      ((∃ e, env.unmarshalConvoys output = .error e) →
        ∀ convoy, env.unmarshalConvoy output = .ok convoy → a.Convoys env = .ok [convoy]) ∧
      ((∃ e, env.unmarshalConvoys output = .error e) →
        (∃ e, env.unmarshalConvoy output = .error e) → a.Convoys env = .ok [])) := by
  refine ⟨?_, ?_, ?_⟩
  · cases h1 : env.gtConvoyList a.townRoot with
    | error e => exact ⟨[], by simp [FSAdapter.Convoys, h1]⟩
    | ok output =>
      cases h2 : env.unmarshalConvoys output with
      | ok convoys => exact ⟨convoys, by simp [FSAdapter.Convoys, h1, h2]⟩
      | error e =>
        cases h3 : env.unmarshalConvoy output with
        | ok convoy => exact ⟨[convoy], by simp [FSAdapter.Convoys, h1, h2, h3]⟩
        | error e2 => exact ⟨[], by simp [FSAdapter.Convoys, h1, h2, h3]⟩
  · rintro ⟨e, he⟩
    simp [FSAdapter.Convoys, he]
  · intro output hout
    refine ⟨?_, ?_, ?_⟩
    · intro convoys hdec
      simp [FSAdapter.Convoys, hout, hdec]
    · rintro ⟨e, hdec⟩ convoy hone
      simp [FSAdapter.Convoys, hout, hdec, hone]
    · rintro ⟨e, hdec⟩ ⟨e2, hone⟩
      simp [FSAdapter.Convoys, hout, hdec, hone]

/-- When `gt` prints one convoy object, `Convoys` returns the one-element
sequence holding it; when `gt` is not installed, `Convoys` returns nothing. -/
theorem convoys_best_effort_witness :
    (FSAdapter.mk "/town").Convoys gtEnv = .ok [Convoy.mk "\x7b\"id\":\"cv-1\"\x7d"] ∧
    (FSAdapter.mk "/town").Convoys sampleEnv = .ok [] :=
  ⟨((convoys_best_effort gtEnv (FSAdapter.mk "/town")).2.2
      "\x7b\"id\":\"cv-1\"\x7d" rfl).2.1 ⟨_, rfl⟩ (Convoy.mk "\x7b\"id\":\"cv-1\"\x7d") rfl,
   (convoys_best_effort sampleEnv (FSAdapter.mk "/town")).2.1 ⟨_, rfl⟩⟩

/-- C14: the code departs from the claim.  When the inbox command prints a
single JSON object, which decodes as one message and not as a sequence, the
claim asks for the one-element sequence holding that message, as `Convoys`
returns for a single convoy object on the same snapshot; `Mail` returns the
empty sequence and the message is lost. -/
theorem mail_drops_single_object :
    gtEnv.gtMailInbox "/town" "mayor/" = .ok "\x7b\"id\":\"msg-1\"\x7d" ∧
    gtEnv.unmarshalMessage "\x7b\"id\":\"msg-1\"\x7d" =
      .ok (Message.mk "\x7b\"id\":\"msg-1\"\x7d") ∧
    (FSAdapter.mk "/town").Mail gtEnv "mayor/" = .ok [] ∧
    (FSAdapter.mk "/town").Mail gtEnv "mayor/" ≠
      .ok [Message.mk "\x7b\"id\":\"msg-1\"\x7d"] ∧
    (FSAdapter.mk "/town").Convoys gtEnv = .ok [Convoy.mk "\x7b\"id\":\"cv-1\"\x7d"] := by
  refine ⟨rfl, rfl, rfl, ?_, rfl⟩
  intro h
  have h2 : (FSAdapter.mk "/town").Mail gtEnv "mayor/" = .ok [] := rfl
  rw [h2] at h
  injection h with h
  exact List.noConfusion h

/-- C15, as stated, fails: under a root without marker `Status` reports
"Town not found at /nowhere", with a capital T, which is not the text
"town not found at /nowhere" that `Town` fails with for that root. -/
theorem status_not_found_text_is_capitalised :
    (FSAdapter.mk "/nowhere").dirExists sampleEnv (sampleEnv.Join ["/nowhere", "mayor"]) = false ∧
    (FSAdapter.mk "/nowhere").Town sampleEnv = .error "town not found at /nowhere" ∧
    ∃ st : TownStatus, (FSAdapter.mk "/nowhere").Status sampleEnv = .ok st ∧
      st.Error = "Town not found at /nowhere" ∧
      st.Error ≠ "town not found at " ++ "/nowhere" :=
  ⟨by decide, rfl, TownStatus.mk "/nowhere" false "Town not found at /nowhere" 0 0 0 0, rfl, rfl,
    by decide⟩

/-- C15, amended: when the town marker is absent, `Status` returns the status
whose `Error` is exactly "Town not found at " (capital T) followed by the
root, whose `TownRoot` is the root, whose `Healthy` is false and whose four
counters are zero, while `Town` fails with "town not found at " followed by
the root; and the status is the same in every snapshot with the same
`filepath.Join` and `os.Stat`, so nothing else is consulted. -/
theorem status_short_circuits_without_marker (env : Env) (a : FSAdapter)
    (habsent : a.dirExists env (env.Join [a.townRoot, "mayor"]) = false) :
    a.Status env =
      .ok (TownStatus.mk a.townRoot false ("Town not found at " ++ a.townRoot) 0 0 0 0) ∧
    a.Town env = .error ("town not found at " ++ a.townRoot) ∧
    (∀ env2 : Env, env2.Join = env.Join → env2.Stat = env.Stat →
      a.Status env2 = a.Status env) := by
  have hex : a.townExists env = false := habsent
  have hst : a.Status env =
      .ok (TownStatus.mk a.townRoot false ("Town not found at " ++ a.townRoot) 0 0 0 0) := by
    rw [FSAdapter.Status_eq, hex]; rfl
  refine ⟨hst, ?_, ?_⟩
  · rw [FSAdapter.Town_eq, hex]; rfl
  · intro env2 hjoin hstat
    have hex2 : a.townExists env2 = false := by
      rw [← hex]
      simp only [FSAdapter.townExists, FSAdapter.dirExists, hjoin, hstat]
    rw [hst, FSAdapter.Status_eq, hex2]; rfl

/-- Under `/nowhere` the sample snapshot has no marker: `Status` reports the
capitalised text and zero counters. -/
theorem status_short_circuits_without_marker_witness :
    (FSAdapter.mk "/nowhere").dirExists sampleEnv (sampleEnv.Join ["/nowhere", "mayor"]) = false ∧
    (FSAdapter.mk "/nowhere").Status sampleEnv =
      .ok (TownStatus.mk "/nowhere" false ("Town not found at " ++ "/nowhere") 0 0 0 0) :=
  ⟨by decide,
   (status_short_circuits_without_marker sampleEnv (FSAdapter.mk "/nowhere") (by decide)).1⟩

/-- C16: `NewFSAdapter` with an empty root uses `filepath.Join` of the value of
`HOME` and "gt"; with a non-empty root it uses that root verbatim; and the
`TownRoot` of every status returned by `Status` is the root of the adapter,
whether or not the town exists. -/
theorem new_adapter_root_and_status_root (env : Env) :
    (NewFSAdapter env "").townRoot = env.Join [env.Getenv "HOME", "gt"] ∧
    (∀ root, root ≠ "" → (NewFSAdapter env root).townRoot = root) ∧
    (∀ a : FSAdapter, ∃ st : TownStatus, a.Status env = .ok st ∧ st.TownRoot = a.townRoot) ∧
    (∀ root, ∃ st : TownStatus, (NewFSAdapter env root).Status env = .ok st ∧
      st.TownRoot = (NewFSAdapter env root).townRoot) := by
  have hstatus : ∀ a : FSAdapter, ∃ st : TownStatus,
      a.Status env = .ok st ∧ st.TownRoot = a.townRoot := by
    intro a
    rw [FSAdapter.Status_eq]
    cases a.townExists env
    · exact ⟨_, rfl, rfl⟩
    · exact ⟨_, rfl, rfl⟩
  refine ⟨by simp [NewFSAdapter], ?_, hstatus, fun root => hstatus _⟩
  intro root hroot
  simp [NewFSAdapter, hroot]

/-- With `HOME` set to `/home/gt` the default adapter is rooted at
`/home/gt/gt`, and an adapter made for `/town` is rooted at `/town`. -/
theorem new_adapter_root_and_status_root_witness :
    (NewFSAdapter gtEnv "").townRoot = "/home/gt/gt" ∧
    (NewFSAdapter gtEnv "/town").townRoot = "/town" ∧
    ∃ st : TownStatus, (NewFSAdapter gtEnv "").Status gtEnv = .ok st ∧
      st.TownRoot = (NewFSAdapter gtEnv "").townRoot :=
  ⟨(new_adapter_root_and_status_root gtEnv).1.trans (by decide),
   (new_adapter_root_and_status_root gtEnv).2.1 "/town" (by decide),
   (new_adapter_root_and_status_root gtEnv).2.2.2 ""⟩

/-- C17: the session name does not determine the agent.  In every rig `r`
returned by `Rigs`, a polecat named "witness" has the status of the rig's
Witness, and a polecat named "crew-x" has the status of the crew member `x`,
whatever the sessions are; and across rigs the polecat "b-c" of a rig "a" has
the status of the polecat "c" of a rig "a-b"; each time the two agents differ
in role or owning rig.  Such agents exist: for every outcome of the session
listing, `Rigs` on the colliding town returns the rigs `a` and `a-b` with
these agents, pairwise of equal status. -/
theorem session_name_not_injective :
    (∀ (env : Env) (a : FSAdapter) (rigs : List Rig), a.Rigs env = .ok rigs → ∀ r ∈ rigs,
      (∀ w, r.Witness = some w → ∀ p ∈ r.Polecats, p.Name = "witness" →
        p.Status = w.Status ∧ p.Role ≠ w.Role) ∧
      (∀ c ∈ r.Crew, ∀ p ∈ r.Polecats, p.Name = "crew-" ++ c.Name →
        p.Status = c.Status ∧ p.Role ≠ c.Role)) ∧
    (∀ (env : Env) (a : FSAdapter) (rigs : List Rig), a.Rigs env = .ok rigs →
      ∀ r₁ ∈ rigs, ∀ r₂ ∈ rigs, r₁.Name = "a" → r₂.Name = "a-b" →
      ∀ p₁ ∈ r₁.Polecats, ∀ p₂ ∈ r₂.Polecats, p₁.Name = "b-c" → p₂.Name = "c" →
        p₁.Status = p₂.Status ∧ p₁.Rig ≠ p₂.Rig) ∧
    (∀ tmux : Except String String,
      ∃ (ra rab : Rig) (w pbc px pw cx pc : Agent),
        (FSAdapter.mk "/town").Rigs (collisionEnv tmux) = .ok [ra, rab] ∧
        ra.Name = "a" ∧ rab.Name = "a-b" ∧
        ra.Witness = some w ∧ ra.Polecats = [pbc, px, pw] ∧ ra.Crew = [cx] ∧
        rab.Polecats = [pc] ∧
        pbc.Name = "b-c" ∧ px.Name = "crew-x" ∧ pw.Name = "witness" ∧ cx.Name = "x" ∧
        pc.Name = "c" ∧
        pw.Status = w.Status ∧ px.Status = cx.Status ∧ pbc.Status = pc.Status) := by
  refine ⟨?_, ?_, ?_⟩
  · intro env a rigs hrigs r hr
    have hform := FSAdapter.mem_Rigs env a rigs hrigs r hr
    refine ⟨?_, ?_⟩
    · intro w hw p hp hname
      rw [hform] at hw hp
      have hw' := FSAdapter.rigOf_witness env a _ _ w hw
      have hp' := FSAdapter.rigOf_polecat env a _ _ p hp
      rw [hname, FSAdapter.session_witness_eq] at hp'
      rw [hw', hp']
      exact ⟨rfl, fun h => AgentRole.noConfusion h⟩
    · intro c hc p hp hname
      rw [hform] at hc hp
      have hc' := FSAdapter.rigOf_crew env a _ _ c hc
      have hp' := FSAdapter.rigOf_polecat env a _ _ p hp
      rw [hname, FSAdapter.session_crew_eq] at hp'
      rw [hc', hp']
      exact ⟨rfl, fun h => AgentRole.noConfusion h⟩
  · intro env a rigs hrigs r₁ hr₁ r₂ hr₂ hn₁ hn₂ p₁ hp₁ p₂ hp₂ hm₁ hm₂
    have hf₁ := FSAdapter.mem_Rigs env a rigs hrigs r₁ hr₁
    have hf₂ := FSAdapter.mem_Rigs env a rigs hrigs r₂ hr₂
    rw [hf₁, hn₁] at hp₁
    rw [hf₂, hn₂] at hp₂
    have h₁ := FSAdapter.rigOf_polecat env a _ _ p₁ hp₁
    have h₂ := FSAdapter.rigOf_polecat env a _ _ p₂ hp₂
    rw [hm₁] at h₁
    rw [hm₂] at h₂
    rw [h₁, h₂]
    have hne : "a" ≠ "a-b" := by decide
    exact ⟨rfl, hne⟩
  · intro tmux
    exact ⟨_, _, _, _, _, _, _, _, rfl, rfl, rfl, rfl, rfl, rfl, rfl, rfl, rfl, rfl, rfl, rfl,
      rfl, rfl, rfl⟩

/-- In the colliding town with the single live session `gt-a-witness`, the
polecat named witness of the rig `a` is Active together with the rig's
Witness, and the two differ in role. -/
theorem session_name_not_injective_witness :
    ∃ (rigs : List Rig) (r : Rig) (w p : Agent),
      (FSAdapter.mk "/town").Rigs (collisionEnv (.ok "gt-a-witness\n")) = .ok rigs ∧
      r ∈ rigs ∧ r.Witness = some w ∧ p ∈ r.Polecats ∧ p.Name = "witness" ∧
      w.Status = AgentStatus.StatusActive ∧ p.Status = w.Status ∧ p.Role ≠ w.Role :=
  ⟨[FSAdapter.rigOf (collisionEnv (.ok "gt-a-witness\n")) (FSAdapter.mk "/town")
      ["gt-a-witness"] "a",
    FSAdapter.rigOf (collisionEnv (.ok "gt-a-witness\n")) (FSAdapter.mk "/town")
      ["gt-a-witness"] "a-b"],
   FSAdapter.rigOf (collisionEnv (.ok "gt-a-witness\n")) (FSAdapter.mk "/town")
      ["gt-a-witness"] "a",
   Agent.mk AgentRole.RoleWitness "witness" "a" AgentStatus.StatusActive,
   Agent.mk AgentRole.RolePolecat "witness" "a" AgentStatus.StatusActive,
   rfl, List.mem_cons_self _ _, rfl, by decide, rfl, rfl,
   (session_name_not_injective.1 (collisionEnv (.ok "gt-a-witness\n")) (FSAdapter.mk "/town")
     _ rfl _ (List.mem_cons_self _ _)).1 _ rfl _ (by decide) rfl⟩

/-- C18: from `New`, any sequence of messages is handled by `Update` without a
failing index expression, and in the model reached the column cursor and the
issue cursor are not negative; there every further message, a key press
reaching the `Down` or `Enter` handler included, is again handled without a
failing index and leaves both cursors not negative, whatever board the last
refresh delivered. -/
theorem update_never_indexes_out_of_bounds (spinnerUpdate : Nat → Nat) (apiURL : String)
    (msgs : List Tui.Msg) :
    ∃ m : Tui.Model, Tui.run spinnerUpdate (Tui.New apiURL) msgs = .ok m ∧
      0 ≤ m.cursor ∧ 0 ≤ m.issueCur ∧
      (∀ msg : Tui.Msg, ∃ (m2 : Tui.Model) (c : Tui.Cmd),
        Tui.Update spinnerUpdate m msg = .ok (m2, c) ∧ 0 ≤ m2.cursor ∧ 0 ≤ m2.issueCur) ∧
      (∃ (m2 : Tui.Model) (c : Tui.Cmd), Tui.updateDown m = .ok (m2, c)) ∧
      (∃ (m2 : Tui.Model) (c : Tui.Cmd), Tui.updateEnter m = .ok (m2, c)) := by
  obtain ⟨m, hrun, hinv⟩ := Tui.run_inv spinnerUpdate msgs (Tui.New apiURL)
    ⟨le_refl _, le_refl _⟩
  obtain ⟨d, cd, hd, _⟩ := Tui.updateDown_inv m hinv
  obtain ⟨e, ce, he, _⟩ := Tui.updateEnter_inv m hinv
  exact ⟨m, hrun, hinv.1, hinv.2, fun msg => Tui.Update_inv spinnerUpdate m msg hinv,
    ⟨d, cd, hd⟩, ⟨e, ce, he⟩⟩

/-- After a board of two columns, a move right and a move down, a refresh
that delivers a board without columns leaves the column cursor at 1, beyond
the board; `Down` and `Enter` are then still handled and change nothing. -/
theorem update_never_indexes_out_of_bounds_witness :
    ∃ m : Tui.Model,
      Tui.run (fun s => s + 1) (Tui.New "http://localhost:7070")
        [Tui.Msg.boardMsg (some Tui.sampleBoard), Tui.Msg.KeyMsg "right",
         Tui.Msg.boardMsg (some Tui.emptyBoard), Tui.Msg.KeyMsg "down",
         Tui.Msg.KeyMsg "enter"] = .ok m ∧
      m.cursor = 1 ∧ 0 ≤ m.issueCur := by
  obtain ⟨m, hrun, _, hcur, _⟩ :=
    update_never_indexes_out_of_bounds (fun s => s + 1) "http://localhost:7070"
      [Tui.Msg.boardMsg (some Tui.sampleBoard), Tui.Msg.KeyMsg "right",
       Tui.Msg.boardMsg (some Tui.emptyBoard), Tui.Msg.KeyMsg "down",
       Tui.Msg.KeyMsg "enter"]
  refine ⟨m, hrun, ?_, hcur⟩
  have hval : Tui.run (fun s => s + 1) (Tui.New "http://localhost:7070")
      [Tui.Msg.boardMsg (some Tui.sampleBoard), Tui.Msg.KeyMsg "right",
       Tui.Msg.boardMsg (some Tui.emptyBoard), Tui.Msg.KeyMsg "down",
       Tui.Msg.KeyMsg "enter"] =
      .ok ({ Tui.New "http://localhost:7070" with
        loading := false, board := some Tui.emptyBoard, cursor := 1 }) := rfl
  rw [hval] at hrun
  injection hrun with hrun
  rw [← hrun]

end Gastown
